import Mathlib

/-! # Store primitives and the emoji store of mattermost-server

A shallow embedding of `store/store.go` (the `Do` / `Must` result-channel
primitive) and of `store/sqlstore/emoji_store.go` (the emoji entity store),
followed by the properties proved about them.

Conventions of the embedding:

* a Go pointer or interface value that may be `nil` is an `Option`;
* a Go `panic` is an explicit `Outcome.panic`;
* the package-level `emojiCache`, the database behind `GetMaster()` /
  `GetReplica()`, the metrics collaborator and the wall clock are fields of an
  explicit state `Env` threaded through every operation;
* `int64` timestamps are `Int` (no arithmetic is performed on them);
* the cache stores `*model.Emoji` pointers and `Get` hands out the pointer it
  caches, so a record passed to the store by pointer is its content together
  with the key of the cache entry that holds the same object, if any
  (`heldBy`), and a write through the pointer is a write to that entry
  (`Cache.stampInPlace`);
* code the store calls that lies outside the two source files is either
  modelled from the specification (the cache `utils.Cache`, the record
  `model.Emoji`) or taken as a parameter of the operation that calls it (the
  methods `PreSave` and `IsValid`, the constant `model.EMOJI_SORT_BY_NAME`, the
  helper `MapStringsToQueryParams`, the SQL engine answering a select of many
  rows).
-/

namespace store

/-! ## `model.AppError` -/

/-- The application error value built by `model.NewAppError`. Only the fields
the store code sets are kept. -/
structure AppError where
  Where : String
  Id : String
  DetailedError : String
  StatusCode : Nat
deriving DecidableEq

/-- Go: `model.NewAppError(where, id, nil, details, status)`. -/
def NewAppError (wh id details : String) (status : Nat) : AppError :=
  { Where := wh, Id := id, DetailedError := details, StatusCode := status }

/-- Go: `http.StatusBadRequest`. -/
def StatusBadRequest : Nat := 400
/-- Go: `http.StatusNotFound`. -/
def StatusNotFound : Nat := 404
/-- Go: `http.StatusInternalServerError`. -/
def StatusInternalServerError : Nat := 500

/-! ## Panics -/

/-- The value carried by a Go panic: either a value passed to `panic(...)` by
the program, or a run-time error raised by the language itself. -/
inductive PanicValue where
  | appError (e : AppError)
  | runtimeError (msg : String)
deriving DecidableEq

/-- The result of running a Go function body: it returns, or it panics. -/
inductive Outcome (α : Type) where
  | ret (a : α)
  | panic (v : PanicValue)
deriving DecidableEq

/-- Sequencing of outcomes: a panic aborts the rest of the computation. -/
def Outcome.bind {α β : Type} : Outcome α → (α → Outcome β) → Outcome β
  | .ret a, k => k a
  | .panic v, _ => .panic v

/-! ## `store.go`: `StoreResult`, `StoreChannel`, `Do`, `Must` -/

/-- Go: `type StoreResult struct { Data interface{}; Err *model.AppError }`.
The zero value `StoreResult{}` has both fields `nil`. -/
structure StoreResult (α : Type) where
  Data : Option α := none
  Err : Option AppError := none
deriving DecidableEq

/-- Go: `type StoreChannel chan StoreResult`, as the state of a buffered
channel: its capacity, the queued values (oldest first) and the closed flag. -/
structure StoreChannel (α : Type) where
  cap : Nat
  buf : List (StoreResult α)
  closed : Bool
deriving DecidableEq

/-- Go: `make(StoreChannel, n)`. -/
def makeChan {α : Type} (n : Nat) : StoreChannel α :=
  { cap := n, buf := [], closed := false }

/-- A channel operation performed by the producing goroutine. -/
inductive ChanOp (α : Type) where
  | send (r : StoreResult α)
  | close
deriving DecidableEq

/-- Whether an operation is a send. -/
def ChanOp.isSend {α : Type} : ChanOp α → Bool
  | .send _ => true
  | .close => false

/-- The effect of attempting one channel operation. -/
inductive OpResult (α : Type) where
  | done (c : StoreChannel α)
  | blocked
  | panicked (msg : String)
deriving DecidableEq

/-- Go channel semantics for the producer side: a send on a closed channel
panics, a send on a full buffer blocks, otherwise the value is queued; closing
a closed channel panics. -/
def ChanOp.exec {α : Type} (op : ChanOp α) (c : StoreChannel α) : OpResult α :=
  match op with
  | .send r =>
    if c.closed then .panicked "send on closed channel"
    else if c.buf.length < c.cap then .done { c with buf := c.buf ++ [r] }
    else .blocked
  | .close =>
    if c.closed then .panicked "close of closed channel"
    else .done { c with closed := true }

/-- Go: `<-sc`, a single receive attempt. A queued value is dequeued; on an
empty closed channel the zero value is delivered; on an empty open channel the
receiver has to wait (`none`). -/
def StoreChannel.recv {α : Type} (c : StoreChannel α) :
    Option (StoreResult α × StoreChannel α) :=
  match c.buf with
  | r :: rest => some (r, { c with buf := rest })
  | [] => if c.closed then some ({}, c) else none

/-- A dispatched call: the channel handed back to the caller, the operations
the background goroutine has still to perform, and the channel operations it
has performed so far (oldest first). -/
structure Pending (α : Type) where
  storeChannel : StoreChannel α
  goroutine : List (ChanOp α)
  events : List (ChanOp α)
deriving DecidableEq

/-- Go: `Do`.
```go
storeChannel := make(StoreChannel, 1)
go func() {
    result := StoreResult{}
    f(&result)
    storeChannel <- result
    close(storeChannel)
}()
return storeChannel
```
The work function mutates the slot it is handed, so it is a function from the
slot before to the slot after. -/
def Do {α : Type} (f : StoreResult α → StoreResult α) : Pending α :=
  let storeChannel : StoreChannel α := makeChan 1
  let result : StoreResult α := {}
  let result := f result
  { storeChannel := storeChannel
    goroutine := [ChanOp.send result, ChanOp.close]
    events := [] }

/-- One scheduling step of the producing goroutine. `none` when it cannot
move: it has finished, it is blocked, or it panicked. -/
def Pending.step {α : Type} (p : Pending α) : Option (Pending α) :=
  match p.goroutine with
  | [] => none
  | op :: rest =>
    match op.exec p.storeChannel with
    | .done c => some { storeChannel := c, goroutine := rest, events := p.events ++ [op] }
    | .blocked => none
    | .panicked _ => none

/-- Up to `n` scheduling steps of the producing goroutine (it stays where it
is once it cannot move). -/
def Pending.run {α : Type} : Nat → Pending α → Pending α
  | 0, p => p
  | n + 1, p =>
    match p.step with
    | some q => Pending.run n q
    | none => p

/-- A blocking receive by the consumer: while no value is available the
producing goroutine is left to run; `none` when the consumer would wait for
ever. -/
def blockingRecv {α : Type} (c : StoreChannel α) :
    List (ChanOp α) → Option (StoreResult α × StoreChannel α × List (ChanOp α))
  | [] =>
    match c.recv with
    | some (r, c1) => some (r, c1, [])
    | none => none
  | op :: rest =>
    match c.recv with
    | some (r, c1) => some (r, c1, op :: rest)
    | none =>
      match op.exec c with
      | .done c1 => blockingRecv c1 rest
      | .blocked => none
      | .panicked _ => none

/-- What `Must` does once it has received `r`, together with the number of
seconds it slept before finishing.
```go
if r.Err != nil {
    time.Sleep(time.Second)
    panic(r.Err)
}
return r.Data
``` -/
def MustOn {α : Type} (r : StoreResult α) : Nat × Outcome (Option α) :=
  match r.Err with
  | some err => (1, Outcome.panic (PanicValue.appError err))
  | none => (0, Outcome.ret r.Data)

/-- Go: `Must`, `r := <-sc` followed by `MustOn r`. `none` when the receive
never completes. -/
def Must {α : Type} (p : Pending α) : Option (Nat × Outcome (Option α)) :=
  match blockingRecv p.storeChannel p.goroutine with
  | some (r, _, _) => some (MustOn r)
  | none => none

/-- The value the consumer of a dispatched call receives from its channel, if
the receive completes. -/
def Pending.delivered {α : Type} (p : Pending α) : Option (StoreResult α) :=
  match blockingRecv p.storeChannel p.goroutine with
  | some (r, _, _) => some r
  | none => none

end store

namespace sqlstore

open store

/-! ## `model.Emoji` -/

/-- Modelled from the spec: the declaration of `model.Emoji` lies outside the
sources at hand. The record follows section 3 ("an emoji: id, creator id,
name, timestamps, soft-delete marker") and the column names the store uses
(`Id`, `CreatorId`, `Name`, `CreateAt`, `UpdateAt`, `DeleteAt`). -/
structure Emoji where
  Id : String
  CreateAt : Int
  UpdateAt : Int
  DeleteAt : Int
  CreatorId : String
  Name : String
deriving DecidableEq

/-! ## `utils.Cache` -/

/-- Go: `EMOJI_CACHE_SIZE`. -/
def EMOJI_CACHE_SIZE : Nat := 5000

/-- Go: `EMOJI_CACHE_SEC` (30 minutes). -/
def EMOJI_CACHE_SEC : Nat := 1800

/-- Modelled from the spec: a cache entry of `utils.Cache` (section 3): key,
payload and the time, in seconds, at which the entry expires. -/
structure CacheEntry where
  key : String
  value : Emoji
  expires : Nat
deriving DecidableEq

/-- Modelled from the spec: an entry older than its time-to-live is treated as
absent; it is live as long as the clock has not passed its expiry time. -/
def CacheEntry.live (e : CacheEntry) (now : Nat) : Bool :=
  decide (now ≤ e.expires)

/-- Modelled from the spec: `utils.Cache` (sections 3 and 4.2), a bounded
collection of entries with least-recently-used eviction. `items` is kept in
recency order, most recently used first. -/
structure Cache where
  size : Nat
  items : List CacheEntry
deriving DecidableEq

/-- Modelled from the spec: `utils.NewLru(size)`, an empty cache of the given
capacity. -/
def NewLru (size : Nat) : Cache :=
  { size := size, items := [] }

/-- The entry resident under a key, expired or not. -/
def Cache.resident (c : Cache) (key : String) : Option CacheEntry :=
  c.items.find? (fun e => e.key == key)

/-- Modelled from the spec: what a lookup of `key` at time `now` finds, without
any bookkeeping: absent when no entry is resident or the resident entry has
expired. -/
def Cache.peek (c : Cache) (now : Nat) (key : String) : Option Emoji :=
  match c.resident key with
  | some e => if e.live now then some e.value else none
  | none => none

/-- Modelled from the spec: `Get(key) → (value, found)` of section 4.2. On a
miss (absent or expired) there is no side effect; on a hit the entry becomes
the most recently used one. -/
def Cache.Get (c : Cache) (now : Nat) (key : String) : Option Emoji × Cache :=
  match c.resident key with
  | some e =>
    if e.live now then
      (some e.value, { c with items := e :: c.items.eraseP (fun x => x.key == key) })
    else (none, c)
  | none => (none, c)

/-- Modelled from the spec: `Put(key, value, ttlSeconds)` of section 4.2,
called `AddWithExpiresInSecs` by the store. It replaces the entry under `key`,
resets its expiry clock, and first evicts the least recently used entry when
the cache is at capacity. -/
def Cache.AddWithExpiresInSecs (c : Cache) (now : Nat) (key : String) (value : Emoji)
    (expireAtSecs : Nat) : Cache :=
  let others := c.items.filter (fun e => e.key != key)
  let kept := if c.size ≤ others.length then others.dropLast else others
  { c with items := { key := key, value := value, expires := now + expireAtSecs } :: kept }

/-- Modelled from the spec: `Remove(key)` of section 4.2: deletes the entry if
present, no error if absent. -/
def Cache.Remove (c : Cache) (key : String) : Cache :=
  { c with items := c.items.filter (fun e => e.key != key) }

/-! ## The metrics collaborator -/

/-- The metrics collaborator `einterfaces.MetricsInterface`, reduced to the two
counters the store touches. Each counter is the list of cache names it was
incremented for, one element per increment. -/
structure MetricsInterface where
  MemCacheHitCounter : List String
  MemCacheMissCounter : List String
deriving DecidableEq

/-- Number of cache-hit increments recorded for a cache name. -/
def MetricsInterface.hits (m : MetricsInterface) (cacheName : String) : Nat :=
  m.MemCacheHitCounter.count cacheName

/-- Number of cache-miss increments recorded for a cache name. -/
def MetricsInterface.misses (m : MetricsInterface) (cacheName : String) : Nat :=
  m.MemCacheMissCounter.count cacheName

/-- Go: `if es.metrics != nil { es.metrics.IncrementMemCacheHitCounter(name) }`. -/
def IncrementMemCacheHitCounter (metrics : Option MetricsInterface) (cacheName : String) :
    Option MetricsInterface :=
  match metrics with
  | some m => some { m with MemCacheHitCounter := cacheName :: m.MemCacheHitCounter }
  | none => none

/-- Go: `if es.metrics != nil { es.metrics.IncrementMemCacheMissCounter(name) }`. -/
def IncrementMemCacheMissCounter (metrics : Option MetricsInterface) (cacheName : String) :
    Option MetricsInterface :=
  match metrics with
  | some m => some { m with MemCacheMissCounter := cacheName :: m.MemCacheMissCounter }
  | none => none

/-! ## The relational backend -/

/-- An error returned by the database layer: the distinguished zero-rows
condition `sql.ErrNoRows`, or any other failure with its text. -/
inductive SqlError where
  | ErrNoRows
  | failure (msg : String)
deriving DecidableEq

/-- Go: `err.Error()` on a non-nil error. -/
def SqlError.Error : SqlError → String
  | .ErrNoRows => "sql: no rows in result set"
  | .failure msg => msg

/-- Go: `err.Error()` on a value of interface type `error`. Calling a method on
a nil interface value is a run-time panic. -/
def errorText : Option SqlError → Outcome String
  | some e => Outcome.ret e.Error
  | none => Outcome.panic
      (PanicValue.runtimeError "invalid memory address or nil pointer dereference")

/-- A value bound to a named parameter of a query. -/
inductive SqlValue where
  | str (s : String)
  | int (i : Int)
deriving DecidableEq

/-- The statements the emoji store sends to the database. -/
inductive Statement where
  /-- The query `SELECT * FROM Emoji WHERE Id = :Id AND DeleteAt = 0`. -/
  | selectById (id : String)
  /-- The statement `UPDATE Emoji SET DeleteAt = :DeleteAt, UpdateAt = :UpdateAt
  WHERE Id = :Id AND DeleteAt = 0`. -/
  | softDelete (id : String) (deleteAt updateAt : Int)
  /-- The query `SELECT * FROM Emoji WHERE Name = :Name AND DeleteAt = 0`. -/
  | selectByName (name : String)
  /-- The insertion of one row into `Emoji`. -/
  | insert (e : Emoji)
  /-- A select of many rows, given by its text and its bound parameters. -/
  | query (text : String) (params : List (String × SqlValue))
deriving DecidableEq

/-- The relational backend collaborator of section 6: the rows of the `Emoji`
table, the statements received so far (oldest first), and a script of
transport-level outcomes, one per statement still to come (`some msg`: that
statement fails with `msg` and has no effect; `none`, or an exhausted script:
it is executed). `GetMaster()` and `GetReplica()` are the same database. -/
structure Database where
  rows : List Emoji
  faults : List (Option String)
  log : List Statement
deriving DecidableEq

/-- The `WHERE Id = :Id AND DeleteAt = 0` predicate. -/
def activeWithId (id : String) (e : Emoji) : Bool :=
  e.Id == id && e.DeleteAt == 0

/-- The transport-level outcome scripted for the next statement. -/
def Database.nextFault (db : Database) : Option String :=
  match db.faults with
  | [] => none
  | fault :: _ => fault

/-- Receiving a statement: it is logged and the next scripted transport
outcome is consumed. -/
def Database.receive (db : Database) (stmt : Statement) : Option String × Database :=
  (db.nextFault, { db with faults := db.faults.tail, log := db.log ++ [stmt] })

/-- The rows a statement restricted by `Id = :Id AND DeleteAt = 0` matches. -/
def Database.activeRows (db : Database) (id : String) : List Emoji :=
  db.rows.filter (activeWithId id)

/-- Go: `SelectOne(&emoji, "SELECT * FROM Emoji WHERE Id = :Id AND DeleteAt = 0", ...)`.
Exactly one matching row is returned; zero rows are `sql.ErrNoRows`; several
rows are an error. -/
def Database.SelectOne (db : Database) (id : String) : Except SqlError Emoji × Database :=
  match db.receive (Statement.selectById id) with
  | (some msg, db1) => (Except.error (SqlError.failure msg), db1)
  | (none, db1) =>
    match db1.activeRows id with
    | [] => (Except.error SqlError.ErrNoRows, db1)
    | [e] => (Except.ok e, db1)
    | _ :: _ :: _ => (Except.error (SqlError.failure "gorp: multiple rows returned"), db1)

/-- Go: `Exec("UPDATE Emoji SET DeleteAt = :DeleteAt, UpdateAt = :UpdateAt
WHERE Id = :Id AND DeleteAt = 0", ...)` followed by `RowsAffected()`: every
matching row is updated and the number of matching rows is reported. (A driver
that counts only rows whose content changed reports the same number unless
the statement rewrites a row to the values it already has, which takes
`DeleteAt = UpdateAt = 0` on both sides.) -/
def Database.Exec (db : Database) (id : String) (deleteAt updateAt : Int) :
    Except SqlError Nat × Database :=
  match db.receive (Statement.softDelete id deleteAt updateAt) with
  | (some msg, db1) => (Except.error (SqlError.failure msg), db1)
  | (none, db1) =>
    (Except.ok (db1.activeRows id).length,
     { db1 with rows := db1.rows.map (fun e =>
         if activeWithId id e then { e with DeleteAt := deleteAt, UpdateAt := updateAt }
         else e) })

/-! ## `emoji_store.go` -/

/-- A call made by the store on the package-level cache. -/
inductive CacheCall where
  | Get (key : String)
  | AddWithExpiresInSecs (key : String) (value : Emoji) (expireAtSecs : Nat)
  | Remove (key : String)
deriving DecidableEq

/-- Everything an emoji store operation reads or writes: the package-level
`emojiCache` together with the calls made on it so far (oldest first), the
database, the metrics collaborator of the store (`nil` when absent) and the
wall clock in seconds. -/
structure Env where
  emojiCache : Cache
  cacheCalls : List CacheCall
  db : Database
  metrics : Option MetricsInterface
  now : Nat
deriving DecidableEq

/-- Go: `var emojiCache *utils.Cache = utils.NewLru(EMOJI_CACHE_SIZE)`. -/
def emojiCache : Cache := NewLru EMOJI_CACHE_SIZE

/-- Go: `emojiCache.Get(key)`. -/
def Env.cacheGet (env : Env) (key : String) : Option Emoji × Env :=
  match env.emojiCache.Get env.now key with
  | (item, cache1) =>
    (item, { env with emojiCache := cache1, cacheCalls := env.cacheCalls ++ [CacheCall.Get key] })

/-- Go: `emojiCache.AddWithExpiresInSecs(key, value, expireAtSecs)`. -/
def Env.cacheAdd (env : Env) (key : String) (value : Emoji) (expireAtSecs : Nat) : Env :=
  { env with
    emojiCache := env.emojiCache.AddWithExpiresInSecs env.now key value expireAtSecs
    cacheCalls := env.cacheCalls ++ [CacheCall.AddWithExpiresInSecs key value expireAtSecs] }

/-- Go: `emojiCache.Remove(key)`. -/
def Env.cacheRemove (env : Env) (key : String) : Env :=
  { env with
    emojiCache := env.emojiCache.Remove key
    cacheCalls := env.cacheCalls ++ [CacheCall.Remove key] }

/-- Lines 83-100 of `SqlEmojiStore.Get`: the backend read and the cache
population that follows it.
```go
var emoji *model.Emoji
if err := es.GetReplica().SelectOne(&emoji, ...); err != nil {
    return nil, model.NewAppError("SqlEmojiStore.Get", "store.sql_emoji.get.app_error", nil,
        "id="+id+", "+err.Error(), http.StatusNotFound)
}
if allowFromCache {
    emojiCache.AddWithExpiresInSecs(id, emoji, EMOJI_CACHE_SEC)
}
return emoji, nil
``` -/
def GetFromReplica (env : Env) (id : String) (allowFromCache : Bool) :
    (Option Emoji × Option AppError) × Env :=
  match env.db.SelectOne id with
  | (Except.error err, db1) =>
    ((none, some (NewAppError "SqlEmojiStore.Get" "store.sql_emoji.get.app_error"
        ("id=" ++ id ++ ", " ++ err.Error) StatusNotFound)),
     { env with db := db1 })
  | (Except.ok emoji, db1) =>
    if allowFromCache then
      ((some emoji, none), Env.cacheAdd { env with db := db1 } id emoji EMOJI_CACHE_SEC)
    else
      ((some emoji, none), { env with db := db1 })

/-- Go: `SqlEmojiStore.Get`.
```go
if allowFromCache {
    if cacheItem, ok := emojiCache.Get(id); ok {
        if es.metrics != nil { es.metrics.IncrementMemCacheHitCounter("Emoji") }
        return cacheItem.(*model.Emoji), nil
    }
    if es.metrics != nil { es.metrics.IncrementMemCacheMissCounter("Emoji") }
} else {
    if es.metrics != nil { es.metrics.IncrementMemCacheMissCounter("Emoji") }
}
... (continued in GetFromReplica)
``` -/
def Get (env : Env) (id : String) (allowFromCache : Bool) :
    (Option Emoji × Option AppError) × Env :=
  if allowFromCache then
    match env.cacheGet id with
    | (some cacheItem, env1) =>
      ((some cacheItem, none),
       { env1 with metrics := IncrementMemCacheHitCounter env1.metrics "Emoji" })
    | (none, env1) =>
      GetFromReplica { env1 with metrics := IncrementMemCacheMissCounter env1.metrics "Emoji" }
        id allowFromCache
  else
    GetFromReplica { env with metrics := IncrementMemCacheMissCounter env.metrics "Emoji" }
      id allowFromCache

/-- Go: `SqlEmojiStore.Delete`.
```go
if sqlResult, err := es.GetMaster().Exec(..., map[string]interface{}{"DeleteAt": time, "UpdateAt": time, "Id": id}); err != nil {
    return model.NewAppError("SqlEmojiStore.Delete", "store.sql_emoji.delete.app_error", nil,
        "id="+id+", err="+err.Error(), http.StatusInternalServerError)
} else if rows, _ := sqlResult.RowsAffected(); rows == 0 {
    return model.NewAppError("SqlEmojiStore.Delete", "store.sql_emoji.delete.no_results", nil,
        "id="+id+", err="+err.Error(), http.StatusBadRequest)
}
emojiCache.Remove(id)
return nil
```
In the `else if` branch the variable `err` of the `if` statement is still in
scope and is `nil` there. -/
def Delete (env : Env) (id : String) (time : Int) : Outcome (Option AppError) × Env :=
  match env.db.Exec id time time with
  | (Except.error e, db1) =>
    let err : Option SqlError := some e
    ((errorText err).bind (fun text =>
        Outcome.ret (some (NewAppError "SqlEmojiStore.Delete" "store.sql_emoji.delete.app_error"
          ("id=" ++ id ++ ", err=" ++ text) StatusInternalServerError))),
     { env with db := db1 })
  | (Except.ok rows, db1) =>
    let err : Option SqlError := none
    if rows = 0 then
      ((errorText err).bind (fun text =>
          Outcome.ret (some (NewAppError "SqlEmojiStore.Delete" "store.sql_emoji.delete.no_results"
            ("id=" ++ id ++ ", err=" ++ text) StatusBadRequest))),
       { env with db := db1 })
    else
      (Outcome.ret none, Env.cacheRemove { env with db := db1 } id)

/-! ## `emoji_store.go`: the remaining operations -/

/-- The `WHERE Name = :Name AND DeleteAt = 0` predicate. -/
def activeWithName (name : String) (e : Emoji) : Bool :=
  e.Name == name && e.DeleteAt == 0

/-- Go: `SelectOne(&emoji, "SELECT * FROM Emoji WHERE Name = :Name AND DeleteAt = 0", ...)`.
Exactly one matching row is returned; zero rows are `sql.ErrNoRows`; several
rows are an error. -/
def Database.SelectOneByName (db : Database) (name : String) :
    Except SqlError Emoji × Database :=
  match db.receive (Statement.selectByName name) with
  | (some msg, db1) => (Except.error (SqlError.failure msg), db1)
  | (none, db1) =>
    match db1.rows.filter (activeWithName name) with
    | [] => (Except.error SqlError.ErrNoRows, db1)
    | [e] => (Except.ok e, db1)
    | _ :: _ :: _ => (Except.error (SqlError.failure "gorp: multiple rows returned"), db1)

/-- The constraint of the `Emoji` table, as declared in `NewSqlEmojiStore`, that
inserting `e` would violate: the column sizes (`Id` 26, `CreatorId` 26, `Name`
64), the primary key `Id`, and the uniqueness of `(Name, DeleteAt)`. -/
def Database.insertViolation (db : Database) (e : Emoji) : Option String :=
  if 26 < e.Id.length then some "value too long for column Id"
  else if 26 < e.CreatorId.length then some "value too long for column CreatorId"
  else if 64 < e.Name.length then some "value too long for column Name"
  else if db.rows.any (fun r => r.Id == e.Id) then some "duplicate entry for key Id"
  else if db.rows.any (fun r => r.Name == e.Name && r.DeleteAt == e.DeleteAt) then
    some "duplicate entry for key Name, DeleteAt"
  else none

/-- Go: `es.GetMaster().Insert(emoji)`: the row is appended unless the transport
fails or a constraint of the table is violated. -/
def Database.Insert (db : Database) (e : Emoji) : Option SqlError × Database :=
  match db.receive (Statement.insert e) with
  | (some msg, db1) => (some (SqlError.failure msg), db1)
  | (none, db1) =>
    match db1.insertViolation e with
    | some msg => (some (SqlError.failure msg), db1)
    | none => (none, { db1 with rows := db1.rows ++ [e] })

/-- How the SQL engine evaluates a select of many rows over the table: the rows
it returns, in its order, or an error. The engine is not part of the
repository; the operations below take it as a parameter. -/
abbrev SelectEngine := List Emoji → String → List (String × SqlValue) → Except SqlError (List Emoji)

/-- Go: `es.GetReplica().Select(&rows, text, params)`. -/
def Database.Select (db : Database) (engine : SelectEngine) (text : String)
    (params : List (String × SqlValue)) : Except SqlError (List Emoji) × Database :=
  match db.receive (Statement.query text params) with
  | (some msg, db1) => (Except.error (SqlError.failure msg), db1)
  | (none, db1) => (engine db1.rows text params, db1)

/-- The effect on the cache of a write through a `*model.Emoji` that the cache
holds. The cache stores pointers and `Get` hands out the very pointer it caches
(`return cacheItem.(*model.Emoji), nil`, and `emojiCache.AddWithExpiresInSecs(id,
emoji, ...)` followed by `return emoji, nil`), so an object a caller passes to the
store may be the object of a cache entry. `heldBy = some key` says the object
written is the one held by the entry under `key`; its content before the write
is `old`, so only an entry under `key` with that content can be it, and its
content becomes `new`. `heldBy = none` says no cache entry holds the object. No
call is made on the cache. -/
def Cache.stampInPlace (c : Cache) (heldBy : Option String) (old new : Emoji) : Cache :=
  match heldBy with
  | none => c
  | some key =>
    { c with items := c.items.map (fun e =>
        if e.key == key && e.value == old then { e with value := new } else e) }

/-- Which cache entry holds the pointer `Get (id, allowFromCache)` returns, when
it returns one: on a hit it is the cached pointer itself, on a miss with caching
requested the object read is put in the cache under `id` and returned; with
caching not requested the object returned is in no cache entry. -/
def Get.heldBy (id : String) (allowFromCache : Bool) : Option String :=
  if allowFromCache then some id else none

/-- Go: `SqlEmojiStore.Save`. The argument is a pointer: `emoji` is the content
of the object it points to and `heldBy` tells which cache entry, if any, holds
that same object (see `Cache.stampInPlace`). `emoji.PreSave()` stamps the object
in place, before validation, so an entry holding it is stamped with it. The
methods `PreSave` and `IsValid` of `model.Emoji` lie outside the sources and are
parameters: `PreSave` gives the content as stamped by this call, `IsValid` the
validation error if any.
```go
emoji.PreSave()
if err := emoji.IsValid(); err != nil {
    return nil, err
}
if err := es.GetMaster().Insert(emoji); err != nil {
    return nil, model.NewAppError("SqlEmojiStore.Save", "store.sql_emoji.save.app_error", nil,
        "id="+emoji.Id+", "+err.Error(), http.StatusInternalServerError)
}
return emoji, nil
``` -/
def Save (PreSave : Emoji → Emoji) (IsValid : Emoji → Option AppError) (env : Env)
    (emoji : Emoji) (heldBy : Option String) : (Option Emoji × Option AppError) × Env :=
  let env := { env with emojiCache := env.emojiCache.stampInPlace heldBy emoji (PreSave emoji) }
  let emoji := PreSave emoji
  match IsValid emoji with
  | some err => ((none, some err), env)
  | none =>
    match env.db.Insert emoji with
    | (some err, db1) =>
      ((none, some (NewAppError "SqlEmojiStore.Save" "store.sql_emoji.save.app_error"
          ("id=" ++ emoji.Id ++ ", " ++ err.Error) StatusInternalServerError)),
       { env with db := db1 })
    | (none, db1) => ((some emoji, none), { env with db := db1 })

/-- Go: `SqlEmojiStore.GetByName`.
```go
var emoji *model.Emoji
if err := es.GetReplica().SelectOne(&emoji, ..., map[string]interface{}{"Name": name}); err != nil {
    if err == sql.ErrNoRows {
        return nil, model.NewAppError("SqlEmojiStore.GetByName", "store.sql_emoji.get_by_name.app_error", nil,
            "name="+name+", "+err.Error(), http.StatusNotFound)
    }
    return nil, model.NewAppError("SqlEmojiStore.GetByName", "store.sql_emoji.get_by_name.app_error", nil,
        "name="+name+", "+err.Error(), http.StatusInternalServerError)
}
return emoji, nil
``` -/
def GetByName (env : Env) (name : String) : (Option Emoji × Option AppError) × Env :=
  match env.db.SelectOneByName name with
  | (Except.error err, db1) =>
    if err = SqlError.ErrNoRows then
      ((none, some (NewAppError "SqlEmojiStore.GetByName" "store.sql_emoji.get_by_name.app_error"
          ("name=" ++ name ++ ", " ++ err.Error) StatusNotFound)),
       { env with db := db1 })
    else
      ((none, some (NewAppError "SqlEmojiStore.GetByName" "store.sql_emoji.get_by_name.app_error"
          ("name=" ++ name ++ ", " ++ err.Error) StatusInternalServerError)),
       { env with db := db1 })
  | (Except.ok emoji, db1) => ((some emoji, none), { env with db := db1 })

/-- Go: `fmt.Sprintf("%v", names)` for a slice of strings. -/
def formatNames (names : List String) : String :=
  "[" ++ " ".intercalate names ++ "]"

/-- Go: `SqlEmojiStore.GetMultipleByName`. The helper `MapStringsToQueryParams`
lies outside the sources and is a parameter. The query text is given with its
white space normalised.
```go
return store.Do(func(result *store.StoreResult) {
    keys, params := MapStringsToQueryParams(names, "Emoji")
    var emojis []*model.Emoji
    if _, err := es.GetReplica().Select(&emojis,
        "SELECT * FROM Emoji WHERE Name IN "+keys+" AND DeleteAt = 0", params); err != nil {
        result.Err = model.NewAppError("SqlEmojiStore.GetByName", "store.sql_emoji.get_by_name.app_error", nil,
            fmt.Sprintf("names=%v, %v", names, err.Error()), http.StatusInternalServerError)
    } else {
        result.Data = emojis
    }
})
``` -/
def GetMultipleByName
    (MapStringsToQueryParams : List String → String → String × List (String × SqlValue))
    (engine : SelectEngine) (env : Env) (names : List String) :
    Pending (List Emoji) × Env :=
  match MapStringsToQueryParams names "Emoji" with
  | (keys, params) =>
    match env.db.Select engine
        ("SELECT * FROM Emoji WHERE Name IN " ++ keys ++ " AND DeleteAt = 0") params with
    | (Except.error err, db1) =>
      (Do (fun result => { result with
          Err := some (NewAppError "SqlEmojiStore.GetByName"
            "store.sql_emoji.get_by_name.app_error"
            ("names=" ++ formatNames names ++ ", " ++ err.Error) StatusInternalServerError) }),
       { env with db := db1 })
    | (Except.ok emojis, db1) =>
      (Do (fun result => { result with Data := some emojis }), { env with db := db1 })

/-- The text of the query `GetList` builds.
```go
query := "SELECT * FROM Emoji WHERE DeleteAt = 0"
if sort == model.EMOJI_SORT_BY_NAME {
    query += " ORDER BY Name"
}
query += " LIMIT :Limit OFFSET :Offset"
``` -/
def GetList.query (EMOJI_SORT_BY_NAME : String) (sort : String) : String :=
  let query := "SELECT * FROM Emoji WHERE DeleteAt = 0"
  let query := if sort = EMOJI_SORT_BY_NAME then query ++ " ORDER BY Name" else query
  query ++ " LIMIT :Limit OFFSET :Offset"

/-- Go: `SqlEmojiStore.GetList`. The constant `model.EMOJI_SORT_BY_NAME` lies
outside the sources and is a parameter.
```go
return store.Do(func(result *store.StoreResult) {
    var emoji []*model.Emoji
    ... (the query text, see GetList.query)
    if _, err := es.GetReplica().Select(&emoji, query,
        map[string]interface{}{"Offset": offset, "Limit": limit}); err != nil {
        result.Err = model.NewAppError("SqlEmojiStore.GetList", "store.sql_emoji.get_all.app_error", nil,
            err.Error(), http.StatusInternalServerError)
    } else {
        result.Data = emoji
    }
})
``` -/
def GetList (engine : SelectEngine) (EMOJI_SORT_BY_NAME : String) (env : Env)
    (offset limit : Int) (sort : String) : Pending (List Emoji) × Env :=
  match env.db.Select engine (GetList.query EMOJI_SORT_BY_NAME sort)
      [("Offset", SqlValue.int offset), ("Limit", SqlValue.int limit)] with
  | (Except.error err, db1) =>
    (Do (fun result => { result with
        Err := some (NewAppError "SqlEmojiStore.GetList" "store.sql_emoji.get_all.app_error"
          err.Error StatusInternalServerError) }),
     { env with db := db1 })
  | (Except.ok emoji, db1) =>
    (Do (fun result => { result with Data := some emoji }), { env with db := db1 })

/-- The `LIKE` pattern `Search` builds.
```go
term := ""
if !prefixOnly {
    term = "%"
}
term += name + "%"
``` -/
def Search.term (name : String) (prefixOnly : Bool) : String :=
  let term := ""
  let term := if !prefixOnly then "%" else term
  term ++ (name ++ "%")

/-- The text of the query `Search` sends, with its white space normalised. -/
def Search.query : String :=
  "SELECT * FROM Emoji WHERE Name LIKE :Name AND DeleteAt = 0 ORDER BY Name LIMIT :Limit"

/-- Go: `SqlEmojiStore.Search`.
```go
return store.Do(func(result *store.StoreResult) {
    var emojis []*model.Emoji
    ... (the pattern, see Search.term)
    if _, err := es.GetReplica().Select(&emojis, ...,
        map[string]interface{}{"Name": term, "Limit": limit}); err != nil {
        result.Err = model.NewAppError("SqlEmojiStore.Search", "store.sql_emoji.get_by_name.app_error", nil,
            "name="+name+", "+err.Error(), http.StatusInternalServerError)
    } else {
        result.Data = emojis
    }
})
``` -/
def Search (engine : SelectEngine) (env : Env) (name : String) (prefixOnly : Bool)
    (limit : Int) : Pending (List Emoji) × Env :=
  match env.db.Select engine Search.query
      [("Name", SqlValue.str (Search.term name prefixOnly)), ("Limit", SqlValue.int limit)] with
  | (Except.error err, db1) =>
    (Do (fun result => { result with
        Err := some (NewAppError "SqlEmojiStore.Search" "store.sql_emoji.get_by_name.app_error"
          ("name=" ++ name ++ ", " ++ err.Error) StatusInternalServerError) }),
     { env with db := db1 })
  | (Except.ok emojis, db1) =>
    (Do (fun result => { result with Data := some emojis }), { env with db := db1 })

/-! ## Sequences of operations -/

/-- One step of a history of the store: a call of one of its seven operations
(with the parameters standing for the code outside the sources), the clock
moving, or the cache dropping entries on its own (expiry, eviction). -/
inductive Op where
  | Save (PreSave : Emoji → Emoji) (IsValid : Emoji → Option AppError) (emoji : Emoji)
      (heldBy : Option String)
  | Get (id : String) (allowFromCache : Bool)
  | GetByName (name : String)
  | GetMultipleByName
      (MapStringsToQueryParams : List String → String → String × List (String × SqlValue))
      (engine : SelectEngine) (names : List String)
  | GetList (engine : SelectEngine) (EMOJI_SORT_BY_NAME : String) (offset limit : Int)
      (sort : String)
  | Delete (id : String) (time : Int)
  | Search (engine : SelectEngine) (name : String) (prefixOnly : Bool) (limit : Int)
  | tick (now : Nat)
  | expire (keep : CacheEntry → Bool)

/-- The state after one step (for a call, whatever its outcome). -/
def Op.apply : Op → Env → Env
  | .Save PreSave IsValid emoji heldBy, env =>
    (sqlstore.Save PreSave IsValid env emoji heldBy).2
  | .Get id allowFromCache, env => (sqlstore.Get env id allowFromCache).2
  | .GetByName name, env => (sqlstore.GetByName env name).2
  | .GetMultipleByName mapParams engine names, env =>
    (sqlstore.GetMultipleByName mapParams engine env names).2
  | .GetList engine sortByName offset limit sort, env =>
    (sqlstore.GetList engine sortByName env offset limit sort).2
  | .Delete id time, env => (sqlstore.Delete env id time).2
  | .Search engine name prefixOnly limit, env =>
    (sqlstore.Search engine env name prefixOnly limit).2
  | .tick now, env => { env with now := now }
  | .expire keep, env =>
    { env with emojiCache := { env.emojiCache with items := env.emojiCache.items.filter keep } }

/-- The state after a sequence of steps, performed one after the other. -/
def runOps : List Op → Env → Env
  | [], env => env
  | op :: ops, env => runOps ops (op.apply env)

/-- A step that does not hand the store an object held by the cache: every step
but a `Save` of a pointer that a cache entry holds. -/
def Op.fresh : Op → Bool
  | .Save _ _ _ heldBy => heldBy.isNone
  | _ => true

/-- The time values passed to the `Delete` calls of a sequence. -/
def deleteTimes : List Op → List Int
  | [] => []
  | Op.Delete _ time :: ops => time :: deleteTimes ops
  | _ :: ops => deleteTimes ops

/-- The change `Delete` makes to a record: both `DeleteAt` and `UpdateAt` are
set to the time passed. -/
def Emoji.softDeleted (e : Emoji) (time : Int) : Emoji :=
  { e with DeleteAt := time, UpdateAt := time }

/-- How a record of the table may differ after a history in which `Delete` was
called with the time values `times`: it is untouched, or it was active and has
been soft-deleted with one of those values. -/
def Emoji.evolves (times : List Int) (r r' : Emoji) : Prop :=
  r' = r ∨ (r.DeleteAt = 0 ∧ ∃ t ∈ times, r' = r.softDeleted t)

/-- The primary key of the `Emoji` table (`SetKeys(false, "Id")`): no two rows
share an `Id`. -/
def Database.primaryKey (db : Database) : Prop :=
  (db.rows.map (fun r => r.Id)).Nodup

/-- Cache coherence: every entry resident in the cache, under whatever key,
holds a row of the table whose `Id` is that key, and that row is active. -/
def Coherent (env : Env) : Prop :=
  ∀ entry ∈ env.emojiCache.items,
    ∃ row ∈ env.db.rows, row.Id = entry.key ∧ entry.value = row ∧ row.DeleteAt = 0

/-! ## Sample data -/

/-- A sample active emoji. -/
def sampleEmoji : Emoji :=
  { Id := "e1", CreateAt := 10, UpdateAt := 10, DeleteAt := 0, CreatorId := "u1", Name := "smile" }

/-- A sample deleted emoji. -/
def goneEmoji : Emoji :=
  { Id := "e2", CreateAt := 3, UpdateAt := 9, DeleteAt := 9, CreatorId := "u1", Name := "frown" }

/-- A database holding the two sample rows, with a healthy transport. -/
def sampleDb : Database :=
  { rows := [sampleEmoji, goneEmoji], faults := [], log := [] }

/-- The sample database with the next statement scripted to fail. -/
def faultyDb : Database :=
  { rows := [sampleEmoji, goneEmoji], faults := [some "driver: bad connection"], log := [] }

/-- An empty metrics collaborator. -/
def noMetrics : MetricsInterface :=
  { MemCacheHitCounter := [], MemCacheMissCounter := [] }

/-- A state with a cold cache over the sample database at time 100. -/
def coldEnv : Env :=
  { emojiCache := emojiCache, cacheCalls := [], db := sampleDb, metrics := some noMetrics
    now := 100 }

/-- A state whose cache holds a live copy of the sample emoji. -/
def warmEnv : Env :=
  { emojiCache := emojiCache.AddWithExpiresInSecs 100 "e1" sampleEmoji EMOJI_CACHE_SEC
    cacheCalls := [], db := sampleDb, metrics := some noMetrics, now := 200 }

/-- A state whose next database statement fails. -/
def faultyEnv : Env :=
  { emojiCache := emojiCache.AddWithExpiresInSecs 100 "e1" sampleEmoji EMOJI_CACHE_SEC
    cacheCalls := [], db := faultyDb, metrics := some noMetrics, now := 200 }

/-- A work function that succeeds with payload 7. -/
def sampleWork (r : StoreResult Nat) : StoreResult Nat :=
  { r with Data := some 7 }

/-- A work function that fails. -/
def failingWork (r : StoreResult Nat) : StoreResult Nat :=
  { r with Err := some (NewAppError "SqlEmojiStore.GetList" "store.sql_emoji.get_all.app_error"
      "driver: bad connection" StatusInternalServerError) }

/-- Modelled from the spec: `Emoji.PreSave` lies outside the sources; by section
4.3 creation "assigns server-stamped creation metadata". The stamp is the fresh
identifier and the creation time, also written to the update time; `newId` and
`millis` stand for the identifier generator and the clock. -/
def Emoji.PreSave (newId : String) (millis : Int) (emoji : Emoji) : Emoji :=
  { emoji with Id := newId, CreateAt := millis, UpdateAt := millis }

/-- Modelled from the spec: `Emoji.IsValid` lies outside the sources; by section
4.3 creation "validates the candidate record (format/size/uniqueness-eligible
fields)" and by section 7 a validation failure is a 400-equivalent outcome. The
checks are on the identifier size, the stamped times, the creator size and the
name (its size, and its characters: letters, digits, hyphen, underscore). -/
def Emoji.IsValid (emoji : Emoji) : Option AppError :=
  if emoji.Id.length ≠ 26 then
    some (NewAppError "Emoji.IsValid" "model.emoji.id.app_error" "" StatusBadRequest)
  else if emoji.CreateAt = 0 then
    some (NewAppError "Emoji.IsValid" "model.emoji.create_at.app_error" "" StatusBadRequest)
  else if emoji.UpdateAt = 0 then
    some (NewAppError "Emoji.IsValid" "model.emoji.update_at.app_error" "" StatusBadRequest)
  else if 26 < emoji.CreatorId.length then
    some (NewAppError "Emoji.IsValid" "model.emoji.user_id.app_error" "" StatusBadRequest)
  else if emoji.Name.length = 0 ∨ 64 < emoji.Name.length then
    some (NewAppError "Emoji.IsValid" "model.emoji.name.app_error" "" StatusBadRequest)
  else if emoji.Name.toList.any (fun c => !(c.isAlphanum || c == '-' || c == '_')) then
    some (NewAppError "Emoji.IsValid" "model.emoji.name.app_error" "" StatusBadRequest)
  else none

/-- A fresh identifier of 26 characters. -/
def sampleId : String := "abcdefghijklmnopqrstuvwxyz"

/-- A creator identifier of 26 characters. -/
def sampleCreator : String := "zyxwvutsrqponmlkjihgfedcba"

/-- A candidate record for creation. -/
def candidate : Emoji :=
  { Id := "", CreateAt := 0, UpdateAt := 0, DeleteAt := 0, CreatorId := sampleCreator
    Name := "wave_x1" }

/-- A candidate record that carries a delete timestamp. -/
def deletedCandidate : Emoji :=
  { Id := "", CreateAt := 0, UpdateAt := 0, DeleteAt := 5, CreatorId := sampleCreator
    Name := "wave_x1" }

/-- A candidate record with an empty name. -/
def namelessCandidate : Emoji :=
  { Id := "", CreateAt := 0, UpdateAt := 0, DeleteAt := 0, CreatorId := sampleCreator
    Name := "" }

/-- A select engine that answers every query with the active rows, in table
order. -/
def sampleEngine : SelectEngine :=
  fun rows _ _ => Except.ok (rows.filter (fun e => e.DeleteAt == 0))

/-- A parameter builder in the manner of `MapStringsToQueryParams`: one
parameter `:Emoji<i>` per name. -/
def sampleMapParams (names : List String) (paramName : String) :
    String × List (String × SqlValue) :=
  ("(" ++ ",".intercalate ((List.range names.length).map (fun i => ":" ++ paramName ++ toString i))
      ++ ")",
   (List.range names.length).zip names |>.map
     (fun p => (paramName ++ toString p.1, SqlValue.str p.2)))

/-- A history over the sample database: a cached read, a soft delete, the
creation of a record, the clock moving, a cached read of the new record, and
the cache dropping the entries that expire before time 2000. -/
def sampleOps : List Op :=
  [Op.Get "e1" true, Op.Delete "e1" 300,
   Op.Save (Emoji.PreSave sampleId 77) Emoji.IsValid candidate none,
   Op.tick 500, Op.Get sampleId true, Op.expire (fun e => decide (2000 ≤ e.expires))]

/-- An active custom emoji. -/
def otherEmoji : Emoji :=
  { Id := "e3", CreateAt := 20, UpdateAt := 20, DeleteAt := 0, CreatorId := sampleCreator
    Name := "party_x1" }

/-- An active row whose name does not pass validation. -/
def oddEmoji : Emoji :=
  { Id := "e4", CreateAt := 30, UpdateAt := 30, DeleteAt := 0, CreatorId := sampleCreator
    Name := "bad name" }

/-- A state with a cold cache over a table of four rows, at time 100. -/
def aliasEnv : Env :=
  { emojiCache := emojiCache, cacheCalls := []
    db := { rows := [sampleEmoji, goneEmoji, otherEmoji, oddEmoji], faults := [], log := [] }
    metrics := some noMetrics, now := 100 }

/-- A state whose cache holds two live entries, the one under "e3" being the
more recently used. -/
def twoEnv : Env :=
  { emojiCache :=
      (emojiCache.AddWithExpiresInSecs 100 "e1" sampleEmoji EMOJI_CACHE_SEC).AddWithExpiresInSecs
        150 "e3" otherEmoji EMOJI_CACHE_SEC
    cacheCalls := []
    db := { rows := [sampleEmoji, goneEmoji, otherEmoji, oddEmoji], faults := [], log := [] }
    metrics := some noMetrics, now := 200 }

/-- A history in which the record a cached `Get` returned is handed to `Save`. -/
def aliasOps : List Op :=
  [Op.Get "e3" true,
   Op.Save (Emoji.PreSave sampleId 77) Emoji.IsValid otherEmoji (Get.heldBy "e3" true)]

end sqlstore

/-! # Properties -/

namespace store

/-! ## `Do` and `Must` -/

theorem blockingRecv_Do_run {α : Type} (f : StoreResult α → StoreResult α) (n : Nat) :
    ∃ c rest, blockingRecv ((Do f).run n).storeChannel ((Do f).run n).goroutine
      = some (f {}, c, rest) := by
  match n with
  | 0 => exact ⟨_, _, rfl⟩
  | 1 => exact ⟨_, _, rfl⟩
  | 2 => exact ⟨_, _, rfl⟩
  | n + 3 => exact ⟨_, _, rfl⟩

/-- Claim C1. The goroutine started by `Do f` performs exactly the channel
operations `send (f StoreResult{})` then `close`, on a fresh channel of
capacity one: neither operation blocks or panics, the goroutine then has
nothing left to do whatever further scheduling it gets, the channel ends up
closed holding the single value `f StoreResult{}`, and among the operations
performed exactly one is a send. -/
theorem Do_sends_once_then_closes {α : Type} (f : StoreResult α → StoreResult α) :
    (Do f).storeChannel = makeChan 1 ∧
    (Do f).goroutine = [ChanOp.send (f {}), ChanOp.close] ∧
    (Do f).run 1 =
      { storeChannel := { cap := 1, buf := [f {}], closed := false }
        goroutine := [ChanOp.close]
        events := [ChanOp.send (f {})] } ∧
    (∀ n, (Do f).run (n + 2) =
      { storeChannel := { cap := 1, buf := [f {}], closed := true }
        goroutine := []
        events := [ChanOp.send (f {}), ChanOp.close] }) ∧
    (∀ n, (((Do f).run n).events.countP ChanOp.isSend) ≤ 1) ∧
    (((Do f).run 2).events.countP ChanOp.isSend) = 1 := by
  refine ⟨rfl, rfl, rfl, ?_, ?_, rfl⟩
  · intro n
    cases n <;> rfl
  · intro n
    match n with
    | 0 => exact Nat.zero_le _
    | 1 => exact Nat.le_refl _
    | 2 => exact Nat.le_refl _
    | n + 3 => exact Nat.le_refl _

/-- Claim C2. Whenever the receive in `Must` delivers `r`: with `r.Err` nil,
`Must` returns exactly `r.Data` (without sleeping); with `r.Err` set, `Must`
returns no payload and panics with that error after sleeping one second. In
particular, for a work function that leaves `Err` nil, `Must (Do f)` returns the
`Data` it set, at whatever point of the goroutine the consumer starts to
wait. -/
theorem Must_returns_data_or_panics {α : Type} (p : Pending α) (r : StoreResult α)
    (c : StoreChannel α) (rest : List (ChanOp α))
    (hrecv : blockingRecv p.storeChannel p.goroutine = some (r, c, rest)) :
    (r.Err = none → Must p = some (0, Outcome.ret r.Data)) ∧
    (∀ err, r.Err = some err →
      Must p = some (1, Outcome.panic (PanicValue.appError err)) ∧
      ∀ secs d, Must p ≠ some (secs, Outcome.ret d)) ∧
    (∀ (f : StoreResult α → StoreResult α) (d : Option α),
      (f {}).Data = d → (f {}).Err = none →
      ∀ n, Must ((Do f).run n) = some (0, Outcome.ret d)) := by
  refine ⟨?_, ?_, ?_⟩
  · intro h
    simp [Must, hrecv, MustOn, h]
  · intro err h
    simp [Must, hrecv, MustOn, h]
  · intro f d hd he n
    obtain ⟨c1, rest1, h1⟩ := blockingRecv_Do_run f n
    simp [Must, h1, MustOn, he, hd]

theorem Must_returns_data_or_panics_witness :
    blockingRecv (Do sqlstore.sampleWork).storeChannel (Do sqlstore.sampleWork).goroutine
      = some ({ Data := some 7 }, { cap := 1, buf := [], closed := false }, [ChanOp.close]) ∧
    Must (Do sqlstore.sampleWork) = some (0, Outcome.ret (some 7)) ∧
    blockingRecv (Do sqlstore.failingWork).storeChannel (Do sqlstore.failingWork).goroutine
      = some (sqlstore.failingWork {}, { cap := 1, buf := [], closed := false }, [ChanOp.close]) ∧
    Must (Do sqlstore.failingWork) = some (1, Outcome.panic (PanicValue.appError
      (NewAppError "SqlEmojiStore.GetList" "store.sql_emoji.get_all.app_error"
        "driver: bad connection" StatusInternalServerError))) :=
  ⟨rfl,
   (Must_returns_data_or_panics (Do sqlstore.sampleWork) _ _ _ rfl).1 rfl,
   rfl,
   ((Must_returns_data_or_panics (Do sqlstore.failingWork) _ _ _ rfl).2.1 _ rfl).1⟩

end store

namespace sqlstore

open store

/-! ## Lemmas on the cache -/

theorem find?_dropLast {α : Type} (p : α → Bool) (l : List α) :
    l.dropLast.find? p = l.find? p ∨ l.dropLast.find? p = none := by
  induction l with
  | nil => simp
  | cons a t ih =>
    cases t with
    | nil => simp
    | cons b t =>
      rw [List.dropLast_cons₂]
      by_cases ha : p a = true
      · left; simp [List.find?, ha]
      · have ha2 : p a = false := by simpa using ha
        simpa [List.find?_cons, ha2] using ih

theorem find?_filter_key_ne (items : List CacheEntry) (id key : String) (h : key ≠ id) :
    (items.filter (fun e => e.key != id)).find? (fun e => e.key == key)
      = items.find? (fun e => e.key == key) := by
  induction items with
  | nil => rfl
  | cons a t ih =>
    cases h1 : (a.key != id) <;> cases h2 : (a.key == key)
    · simp only [List.filter_cons, List.find?_cons, h1, h2]
      exact ih
    · exfalso
      have e1 : a.key = id := by simpa using h1
      have e2 : a.key = key := by simpa using h2
      exact h (e2.symm.trans e1)
    · simp only [List.filter_cons, List.find?_cons, h1, h2, if_true]
      exact ih
    · simp only [List.filter_cons, List.find?_cons, h1, h2, if_true]

theorem find?_filter_key_self (items : List CacheEntry) (id : String) :
    (items.filter (fun e => e.key != id)).find? (fun e => e.key == id) = none := by
  simp [List.find?_eq_none, List.mem_filter]

theorem find?_eraseP_key_ne (items : List CacheEntry) (key k : String) (h : k ≠ key) :
    (items.eraseP (fun x => x.key == key)).find? (fun x => x.key == k)
      = items.find? (fun x => x.key == k) := by
  induction items with
  | nil => rfl
  | cons a t ih =>
    cases h1 : (a.key == key) <;> cases h2 : (a.key == k)
    · simp only [List.eraseP_cons, List.find?_cons, h1, h2, cond_false]
      exact ih
    · simp only [List.eraseP_cons, List.find?_cons, h1, h2, cond_false]
    · simp only [List.eraseP_cons, List.find?_cons, h1, h2, cond_true]
    · exfalso
      have e1 : a.key = key := by simpa using h1
      have e2 : a.key = k := by simpa using h2
      exact h (e2.symm.trans e1)

theorem find?_moveToFront (items : List CacheEntry) (key : String) (e : CacheEntry)
    (h : items.find? (fun x => x.key == key) = some e) (k : String) :
    (e :: items.eraseP (fun x => x.key == key)).find? (fun x => x.key == k)
      = items.find? (fun x => x.key == k) := by
  have hek : e.key = key := by
    have := List.find?_some h
    simpa using this
  cases h2 : (e.key == k)
  · have hne : k ≠ key := by
      intro hk
      have : e.key ≠ k := by simpa using h2
      exact this (hek.trans hk.symm)
    simp only [List.find?_cons, h2]
    exact find?_eraseP_key_ne items key k hne
  · have hk : k = key := by
      have : e.key = k := by simpa using h2
      exact this.symm.trans hek
    simp only [List.find?_cons, h2]
    rw [hk, h]

theorem perm_moveToFront (items : List CacheEntry) (p : CacheEntry → Bool) (e : CacheEntry)
    (h : items.find? p = some e) : (e :: items.eraseP p).Perm items := by
  induction items with
  | nil => simp at h
  | cons a t ih =>
    cases ha : p a
    · have ht : t.find? p = some e := by simpa [List.find?_cons, ha] using h
      simp only [List.eraseP_cons, ha, cond_false]
      exact (List.Perm.swap a e _).trans ((ih ht).cons a)
    · have hae : a = e := by simpa [List.find?_cons, ha] using h
      subst hae
      simp only [List.eraseP_cons, ha, cond_true]
      exact List.Perm.refl _

theorem Cache.Get_hit (c : Cache) (now : Nat) (key : String) (v : Emoji)
    (h : c.peek now key = some v) :
    ∃ e, c.resident key = some e ∧
      c.Get now key = (some v, { c with items := e :: c.items.eraseP (fun x => x.key == key) }) := by
  unfold Cache.peek at h
  unfold Cache.Get
  cases hr : c.resident key with
  | none => simp [hr] at h
  | some e =>
    rw [hr] at h
    cases hl : e.live now with
    | false => simp [hl] at h
    | true =>
      have hv : e.value = v := by simpa [hl] using h
      exact ⟨e, rfl, by simp [hl, hv]⟩

theorem Cache.Get_miss (c : Cache) (now : Nat) (key : String)
    (h : c.peek now key = none) : c.Get now key = (none, c) := by
  unfold Cache.peek at h
  unfold Cache.Get
  cases hr : c.resident key with
  | none => rfl
  | some e =>
    rw [hr] at h
    cases hl : e.live now with
    | false => simp [hl]
    | true => simp [hl] at h

theorem Cache.resident_Remove_self (c : Cache) (id : String) :
    (c.Remove id).resident id = none :=
  find?_filter_key_self c.items id

theorem Cache.resident_Remove_other (c : Cache) (id key : String) (h : key ≠ id) :
    (c.Remove id).resident key = c.resident key :=
  find?_filter_key_ne c.items id key h

theorem Cache.resident_Add_self (c : Cache) (now : Nat) (id : String) (v : Emoji) (secs : Nat) :
    (c.AddWithExpiresInSecs now id v secs).resident id
      = some { key := id, value := v, expires := now + secs } := by
  simp [Cache.AddWithExpiresInSecs, Cache.resident]

theorem Cache.resident_Add_other (c : Cache) (now : Nat) (id : String) (v : Emoji) (secs : Nat)
    (key : String) (h : key ≠ id) :
    (c.AddWithExpiresInSecs now id v secs).resident key = c.resident key ∨
    (c.AddWithExpiresInSecs now id v secs).resident key = none := by
  have hne : (id == key) = false := by simpa using fun e => h e.symm
  unfold Cache.AddWithExpiresInSecs Cache.resident
  simp only [List.find?_cons, hne]
  split
  · rcases find?_dropLast (fun e => e.key == key) (c.items.filter (fun e => e.key != id)) with h1 | h1
    · left; rw [h1]; exact find?_filter_key_ne c.items id key h
    · right; exact h1
  · left; exact find?_filter_key_ne c.items id key h

/-! ## Lemmas on the backend read -/

theorem Database.SelectOne_snd (db : Database) (id : String) :
    (db.SelectOne id).2 =
      { db with faults := db.faults.tail, log := db.log ++ [Statement.selectById id] } := by
  unfold Database.SelectOne Database.receive
  cases db.nextFault with
  | some msg => rfl
  | none =>
    simp only
    split <;> rfl

theorem Database.SelectOne_fault (db : Database) (id msg : String)
    (h : db.nextFault = some msg) :
    (db.SelectOne id).1 = Except.error (SqlError.failure msg) := by
  unfold Database.SelectOne Database.receive
  rw [h]

theorem Database.SelectOne_none (db : Database) (id : String)
    (hok : db.nextFault = none) (hrow : db.activeRows id = []) :
    (db.SelectOne id).1 = Except.error SqlError.ErrNoRows := by
  unfold Database.SelectOne Database.receive
  rw [hok]
  have : Database.activeRows
      { db with faults := db.faults.tail, log := db.log ++ [Statement.selectById id] } id = [] := hrow
  simp only [this]

theorem Database.SelectOne_one (db : Database) (id : String) (e : Emoji)
    (hok : db.nextFault = none) (hrow : db.activeRows id = [e]) :
    (db.SelectOne id).1 = Except.ok e := by
  unfold Database.SelectOne Database.receive
  rw [hok]
  have : Database.activeRows
      { db with faults := db.faults.tail, log := db.log ++ [Statement.selectById id] } id = [e] := hrow
  simp only [this]

theorem GetFromReplica_error (env : Env) (id : String) (allow : Bool) (err : SqlError)
    (h : (env.db.SelectOne id).1 = Except.error err) :
    GetFromReplica env id allow =
      ((none, some (NewAppError "SqlEmojiStore.Get" "store.sql_emoji.get.app_error"
          ("id=" ++ id ++ ", " ++ err.Error) StatusNotFound)),
       { env with db := (env.db.SelectOne id).2 }) := by
  unfold GetFromReplica
  cases hs : env.db.SelectOne id with
  | mk r db1 =>
    rw [hs] at h
    simp only at h
    subst h
    rfl

theorem GetFromReplica_ok (env : Env) (id : String) (allow : Bool) (e : Emoji)
    (h : (env.db.SelectOne id).1 = Except.ok e) :
    GetFromReplica env id allow =
      ((some e, none),
       { env with
         db := (env.db.SelectOne id).2
         emojiCache := if allow then
             env.emojiCache.AddWithExpiresInSecs env.now id e EMOJI_CACHE_SEC
           else env.emojiCache
         cacheCalls := if allow then
             env.cacheCalls ++ [CacheCall.AddWithExpiresInSecs id e EMOJI_CACHE_SEC]
           else env.cacheCalls }) := by
  unfold GetFromReplica
  cases hs : env.db.SelectOne id with
  | mk r db1 =>
    rw [hs] at h
    simp only at h
    subst h
    cases allow <;> rfl

theorem Get_read (env : Env) (id : String) (allow : Bool)
    (hread : allow = false ∨ env.emojiCache.peek env.now id = none) :
    Get env id allow =
      GetFromReplica
        { env with
          metrics := IncrementMemCacheMissCounter env.metrics "Emoji"
          cacheCalls := if allow then env.cacheCalls ++ [CacheCall.Get id] else env.cacheCalls }
        id allow := by
  cases allow with
  | false => rfl
  | true =>
    have hmiss : env.emojiCache.peek env.now id = none := by
      rcases hread with h | h
      · cases h
      · exact h
    simp only [Get, Env.cacheGet, if_true, Cache.Get_miss _ _ _ hmiss]

theorem misses_Increment (m : MetricsInterface) :
    ∃ m1, IncrementMemCacheMissCounter (some m) "Emoji" = some m1 ∧
      m1.misses "Emoji" = m.misses "Emoji" + 1 ∧ m1.hits "Emoji" = m.hits "Emoji" ∧
      m1.MemCacheHitCounter = m.MemCacheHitCounter :=
  ⟨{ m with MemCacheMissCounter := "Emoji" :: m.MemCacheMissCounter }, rfl,
    by simp [MetricsInterface.misses], rfl, rfl⟩

theorem hits_Increment (m : MetricsInterface) :
    ∃ m1, IncrementMemCacheHitCounter (some m) "Emoji" = some m1 ∧
      m1.hits "Emoji" = m.hits "Emoji" + 1 ∧ m1.misses "Emoji" = m.misses "Emoji" ∧
      m1.MemCacheMissCounter = m.MemCacheMissCounter :=
  ⟨{ m with MemCacheHitCounter := "Emoji" :: m.MemCacheHitCounter }, rfl,
    by simp [MetricsInterface.hits], rfl, rfl⟩

theorem Get_hit_eq (env : Env) (id : String) (v : Emoji)
    (hlive : env.emojiCache.peek env.now id = some v) :
    ∃ e, env.emojiCache.resident id = some e ∧
      Get env id true =
        ((some v, none),
         { env with
           emojiCache := { env.emojiCache with
             items := e :: env.emojiCache.items.eraseP (fun x => x.key == id) }
           cacheCalls := env.cacheCalls ++ [CacheCall.Get id]
           metrics := IncrementMemCacheHitCounter env.metrics "Emoji" }) := by
  obtain ⟨e, hres, hget⟩ := Cache.Get_hit env.emojiCache env.now id v hlive
  exact ⟨e, hres, by simp only [Get, Env.cacheGet, if_true, hget]⟩

/-! ## `SqlEmojiStore.Get` -/

/-- Claim C3, as the code has it. When `allowFromCache` is set and the cache
holds a live entry `v` under `id`, `Get` returns `(v, nil)`; it sends nothing to
the database (the database state, statement log included, is untouched, and the
result is the same over every database state); the hit counter for "Emoji" goes
up by exactly one and the miss counter is untouched. The one call `Get` makes on
the cache is the lookup of `id`, which keeps the capacity and the entries, every
key having the same resident entry (value and expiry) as before, and moves the
entry read to the most recently used position, the other entries keeping their
order. The cache is the cache before exactly when the entry read was already
the most recently used one. -/
theorem Get_cache_hit (env : Env) (id : String) (v : Emoji)
    (hlive : env.emojiCache.peek env.now id = some v) :
    (Get env id true).1 = (some v, none) ∧
    (∀ db : Database, (Get { env with db := db } id true).1 = (some v, none) ∧
      (Get { env with db := db } id true).2.db = db) ∧
    (Get env id true).2.db = env.db ∧
    (Get env id true).2.now = env.now ∧
    (Get env id true).2.metrics = IncrementMemCacheHitCounter env.metrics "Emoji" ∧
    (∀ m, env.metrics = some m → ∃ m1, (Get env id true).2.metrics = some m1 ∧
      m1.hits "Emoji" = m.hits "Emoji" + 1 ∧
      m1.misses "Emoji" = m.misses "Emoji" ∧
      m1.MemCacheMissCounter = m.MemCacheMissCounter) ∧
    (Get env id true).2.cacheCalls = env.cacheCalls ++ [CacheCall.Get id] ∧
    (Get env id true).2.emojiCache.size = env.emojiCache.size ∧
    (Get env id true).2.emojiCache.items.Perm env.emojiCache.items ∧
    (∀ key, (Get env id true).2.emojiCache.resident key = env.emojiCache.resident key) ∧
    (∀ now key, (Get env id true).2.emojiCache.peek now key = env.emojiCache.peek now key) ∧
    (∃ e, env.emojiCache.resident id = some e ∧ e.value = v ∧
      (Get env id true).2.emojiCache =
        { env.emojiCache with
          items := e :: env.emojiCache.items.eraseP (fun x => x.key == id) }) ∧
    ((Get env id true).2.emojiCache = env.emojiCache ↔
      ∃ a t, env.emojiCache.items = a :: t ∧ a.key = id) := by
  obtain ⟨e, hres, hG0⟩ := Get_hit_eq env id v hlive
  have hsame : ∀ key, (Get env id true).2.emojiCache.resident key
      = env.emojiCache.resident key := by
    intro key
    rw [hG0]
    exact find?_moveToFront _ id e hres key
  have hval : e.value = v := by
    unfold Cache.peek at hlive
    rw [hres] at hlive
    cases hl : e.live env.now with
    | false => simp [hl] at hlive
    | true => simpa [hl] using hlive
  have hkey : e.key = id := by
    have := List.find?_some hres
    simpa using this
  refine ⟨by rw [hG0], ?_, by rw [hG0], by rw [hG0], by rw [hG0], ?_, by rw [hG0], by rw [hG0],
    ?_, hsame, ?_, ⟨e, hres, hval, by rw [hG0]⟩, ?_⟩
  · intro db
    obtain ⟨e1, _, hG1⟩ := Get_hit_eq { env with db := db } id v hlive
    rw [hG1]
    exact ⟨rfl, rfl⟩
  · intro m hm
    obtain ⟨m1, hm1, hh, hmi, hmc⟩ := hits_Increment m
    refine ⟨m1, ?_, hh, hmi, hmc⟩
    rw [hG0]
    simp only [hm]
    exact hm1
  · rw [hG0]
    exact perm_moveToFront _ _ e hres
  · intro now key
    unfold Cache.peek
    rw [hsame key]
  · have hcache : (Get env id true).2.emojiCache =
        { env.emojiCache with
          items := e :: env.emojiCache.items.eraseP (fun x => x.key == id) } := by
      rw [hG0]
    rw [hcache]
    constructor
    · intro heq
      have hitems : e :: env.emojiCache.items.eraseP (fun x => x.key == id)
          = env.emojiCache.items := congrArg Cache.items heq
      exact ⟨e, _, hitems.symm, hkey⟩
    · rintro ⟨a, t, hat, hak⟩
      have hea : e = a := by
        unfold Cache.resident at hres
        rw [hat, List.find?_cons] at hres
        have hb : (a.key == id) = true := by simpa using hak
        rw [hb] at hres
        exact (Option.some.inj hres).symm
      have hb : (a.key == id) = true := by simpa using hak
      have hitems : e :: env.emojiCache.items.eraseP (fun x => x.key == id)
          = env.emojiCache.items := by
        rw [hat, hea]
        simp [List.eraseP_cons, hb]
      rw [hitems]

/-- Counterexample to claim C3 as stated. The cache holds live entries under
"e1" and "e3", the one under "e3" being the more recently used. `Get ("e1",
true)` is a hit and returns the record cached under "e1", and the cache is not
left as it was: the entry under "e1" has become the most recently used one, so
that the entry the cache would evict next is now the one under "e3". -/
theorem Get_cache_hit_changes_recency :
    twoEnv.emojiCache.peek twoEnv.now "e1" = some sampleEmoji ∧
    (Get twoEnv "e1" true).1 = (some sampleEmoji, none) ∧
    twoEnv.emojiCache.items.map (fun e => e.key) = ["e3", "e1"] ∧
    (Get twoEnv "e1" true).2.emojiCache.items.map (fun e => e.key) = ["e1", "e3"] ∧
    (Get twoEnv "e1" true).2.emojiCache ≠ twoEnv.emojiCache := by
  decide

theorem Get_cache_hit_witness :
    warmEnv.emojiCache.peek warmEnv.now "e1" = some sampleEmoji ∧
    (Get warmEnv "e1" true).1 = (some sampleEmoji, none) ∧
    (Get warmEnv "e1" true).2.db = warmEnv.db :=
  ⟨by decide, (Get_cache_hit warmEnv "e1" sampleEmoji (by decide)).1,
    (Get_cache_hit warmEnv "e1" sampleEmoji (by decide)).2.2.1⟩

/-- Claim C4. Let the row of `id` be active (the select matches exactly the row
`e`), the backend read go through, and the cache hold nothing live under `id`.
Then the first `Get id true` returns `e`, records exactly one miss and no hit,
and leaves the cache equal to the old one after a single
`AddWithExpiresInSecs id e EMOJI_CACHE_SEC` (the calls it makes on the cache are
the lookup and that one insertion): the entry under `id` is `e` with
expiry `now + 1800`, found by lookups up to that time and not after. A later
`Get id true`, from any state whose cache still has that entry (not evicted) and
whose clock has not passed the expiry, over any database state, returns the same
record and records exactly one hit and no miss. -/
theorem Get_cold_then_warm (env : Env) (id : String) (e : Emoji)
    (hcold : env.emojiCache.peek env.now id = none)
    (hok : env.db.nextFault = none)
    (hrow : env.db.activeRows id = [e])
    (env2 : Env)
    (hkept : env2.emojiCache.resident id = (Get env id true).2.emojiCache.resident id)
    (hnow2 : env2.now ≤ env.now + EMOJI_CACHE_SEC) :
    (Get env id true).1 = (some e, none) ∧
    (Get env id true).2.metrics = IncrementMemCacheMissCounter env.metrics "Emoji" ∧
    (∀ m, env.metrics = some m → ∃ m1, (Get env id true).2.metrics = some m1 ∧
      m1.misses "Emoji" = m.misses "Emoji" + 1 ∧ m1.hits "Emoji" = m.hits "Emoji") ∧
    (Get env id true).2.emojiCache
      = env.emojiCache.AddWithExpiresInSecs env.now id e EMOJI_CACHE_SEC ∧
    (Get env id true).2.cacheCalls = env.cacheCalls ++
      [CacheCall.Get id, CacheCall.AddWithExpiresInSecs id e 1800] ∧
    (Get env id true).2.emojiCache.resident id
      = some { key := id, value := e, expires := env.now + 1800 } ∧
    (∀ t, (Get env id true).2.emojiCache.peek t id
      = if t ≤ env.now + 1800 then some e else none) ∧
    (Get env2 id true).1 = (some e, none) ∧
    (Get env2 id true).1 = (Get env id true).1 ∧
    (Get env2 id true).2.metrics = IncrementMemCacheHitCounter env2.metrics "Emoji" ∧
    (∀ m, env2.metrics = some m → ∃ m2, (Get env2 id true).2.metrics = some m2 ∧
      m2.hits "Emoji" = m.hits "Emoji" + 1 ∧ m2.misses "Emoji" = m.misses "Emoji") := by
  have hsel : ((({ env with metrics := IncrementMemCacheMissCounter env.metrics "Emoji" } :
      Env).db).SelectOne id).1 = Except.ok e := Database.SelectOne_one env.db id e hok hrow
  have hG : Get env id true = _ :=
    (Get_read env id true (Or.inr hcold)).trans (GetFromReplica_ok _ id true e hsel)
  have hcache : (Get env id true).2.emojiCache
      = env.emojiCache.AddWithExpiresInSecs env.now id e EMOJI_CACHE_SEC := by
    rw [hG]; rfl
  have hres : (Get env id true).2.emojiCache.resident id
      = some { key := id, value := e, expires := env.now + 1800 } := by
    rw [hcache]; exact Cache.resident_Add_self _ _ _ _ _
  have hpeek2 : env2.emojiCache.peek env2.now id = some e := by
    unfold Cache.peek
    rw [hkept, hres]
    have : env2.now ≤ env.now + 1800 := hnow2
    simp [CacheEntry.live, this]
  obtain ⟨e2, _, hG2⟩ := Get_hit_eq env2 id e hpeek2
  have h1 : (Get env id true).1 = (some e, none) := by rw [hG]
  have h2 : (Get env2 id true).1 = (some e, none) := by rw [hG2]
  have hcalls : (Get env id true).2.cacheCalls = env.cacheCalls ++
      [CacheCall.Get id, CacheCall.AddWithExpiresInSecs id e 1800] := by
    rw [hG]
    simp [EMOJI_CACHE_SEC]
  refine ⟨h1, by rw [hG], ?_, hcache, hcalls, hres, ?_, h2, h2.trans h1.symm, by rw [hG2], ?_⟩
  · intro m hm
    obtain ⟨m1, hm1, hmiss, hhit, _⟩ := misses_Increment m
    refine ⟨m1, ?_, hmiss, hhit⟩
    rw [hG]
    simp only [hm]
    exact hm1
  · intro t
    unfold Cache.peek
    rw [hres]
    simp [CacheEntry.live]
  · intro m hm
    obtain ⟨m2, hm2, hh, hmi, _⟩ := hits_Increment m
    refine ⟨m2, ?_, hh, hmi⟩
    rw [hG2]
    simp only [hm]
    exact hm2

theorem Get_cold_then_warm_witness :
    coldEnv.emojiCache.peek coldEnv.now "e1" = none ∧
    coldEnv.db.activeRows "e1" = [sampleEmoji] ∧
    (Get coldEnv "e1" true).1 = (some sampleEmoji, none) ∧
    (Get { (Get coldEnv "e1" true).2 with now := 1900 } "e1" true).1 = (some sampleEmoji, none) :=
  ⟨by decide, by decide,
    (Get_cold_then_warm coldEnv "e1" sampleEmoji (by decide) (by decide) (by decide)
      { (Get coldEnv "e1" true).2 with now := 1900 } (by decide) (by decide)).1,
    (Get_cold_then_warm coldEnv "e1" sampleEmoji (by decide) (by decide) (by decide)
      { (Get coldEnv "e1" true).2 with now := 1900 } (by decide) (by decide)).2.2.2.2.2.2.2.1⟩

/-- Claim C5. Whenever `Get` performs the backend read (caching not requested,
or nothing live in the cache under `id`): if the read fails, with zero rows or
any other error, `Get` returns a nil record and a non-nil error and the cache is
exactly the cache before the call, the only call made on it being the lookup
of `id` when caching was requested; if the read succeeds with row `e`, the cache
afterwards is the old cache after the single call
`AddWithExpiresInSecs id e EMOJI_CACHE_SEC` when caching was requested and the
old cache otherwise, that insertion under `id` being the only write call made;
in every case a key other than `id` keeps its resident entry or has lost it to
eviction, it never receives a new one. -/
theorem Get_failed_read_leaves_cache (env : Env) (id : String) (allow : Bool)
    (hread : allow = false ∨ env.emojiCache.peek env.now id = none) :
    (∀ err, (env.db.SelectOne id).1 = Except.error err →
      (Get env id allow).1.1 = none ∧
      (Get env id allow).1.2 = some (NewAppError "SqlEmojiStore.Get"
        "store.sql_emoji.get.app_error" ("id=" ++ id ++ ", " ++ err.Error) StatusNotFound) ∧
      (Get env id allow).1.2 ≠ none ∧
      (Get env id allow).2.emojiCache = env.emojiCache ∧
      (Get env id allow).2.cacheCalls =
        if allow then env.cacheCalls ++ [CacheCall.Get id] else env.cacheCalls) ∧
    (∀ e, (env.db.SelectOne id).1 = Except.ok e →
      (Get env id allow).1 = (some e, none) ∧
      (Get env id allow).2.emojiCache =
        (if allow then env.emojiCache.AddWithExpiresInSecs env.now id e EMOJI_CACHE_SEC
        else env.emojiCache) ∧
      (Get env id allow).2.cacheCalls =
        if allow then env.cacheCalls ++
          [CacheCall.Get id, CacheCall.AddWithExpiresInSecs id e EMOJI_CACHE_SEC]
        else env.cacheCalls) ∧
    (∀ key, key ≠ id →
      (Get env id allow).2.emojiCache.resident key = env.emojiCache.resident key ∨
      (Get env id allow).2.emojiCache.resident key = none) := by
  have hR := Get_read env id allow hread
  have hE : ∀ err, (env.db.SelectOne id).1 = Except.error err →
      Get env id allow = _ := fun err h => hR.trans (GetFromReplica_error _ id allow err h)
  have hO : ∀ e, (env.db.SelectOne id).1 = Except.ok e →
      Get env id allow = _ := fun e h => hR.trans (GetFromReplica_ok _ id allow e h)
  refine ⟨?_, ?_, ?_⟩
  · intro err h
    rw [hE err h]
    exact ⟨rfl, rfl, by simp, rfl, rfl⟩
  · intro e h
    rw [hO e h]
    refine ⟨rfl, rfl, ?_⟩
    cases allow <;> simp
  · intro key hkey
    cases hs : (env.db.SelectOne id).1 with
    | error err =>
      left
      rw [hE err hs]
    | ok e =>
      rw [hO e hs]
      cases allow with
      | false => left; rfl
      | true => exact Cache.resident_Add_other env.emojiCache env.now id e EMOJI_CACHE_SEC key hkey

theorem Get_failed_read_leaves_cache_witness :
    (faultyEnv.db.SelectOne "e1").1 = Except.error (SqlError.failure "driver: bad connection") ∧
    (Get faultyEnv "e1" false).1.1 = none ∧
    (Get faultyEnv "e1" false).2.emojiCache = faultyEnv.emojiCache ∧
    (coldEnv.db.SelectOne "e2").1 = Except.error SqlError.ErrNoRows ∧
    (Get coldEnv "e2" true).1.1 = none ∧
    (Get coldEnv "e2" true).2.emojiCache = coldEnv.emojiCache :=
  ⟨rfl,
    ((Get_failed_read_leaves_cache faultyEnv "e1" false (Or.inl rfl)).1
      (SqlError.failure "driver: bad connection") rfl).1,
    ((Get_failed_read_leaves_cache faultyEnv "e1" false (Or.inl rfl)).1
      (SqlError.failure "driver: bad connection") rfl).2.2.2.1,
    rfl,
    ((Get_failed_read_leaves_cache coldEnv "e2" true (Or.inr (by decide))).1
      SqlError.ErrNoRows rfl).1,
    ((Get_failed_read_leaves_cache coldEnv "e2" true (Or.inr (by decide))).1
      SqlError.ErrNoRows rfl).2.2.2.1⟩

/-- Claim C6. `Get id false` neither reads nor writes the cache: it makes no
call on it, the cache after the call is the cache before it, and the returned
pair and the database state
after the call are the same whatever cache the call starts from (a stale entry
under `id` included). The returned pair is the outcome of the backend select
for an active row with that id: the row with no error when the select succeeds
(exactly one active row, transport healthy), and a nil record with the error
built from the select error otherwise (`sql.ErrNoRows` when no row is active). -/
theorem Get_uncached_ignores_cache (env : Env) (id : String) :
    (Get env id false).2.emojiCache = env.emojiCache ∧
    (Get env id false).2.cacheCalls = env.cacheCalls ∧
    (∀ cache : Cache,
      (Get { env with emojiCache := cache } id false).1 = (Get env id false).1 ∧
      (Get { env with emojiCache := cache } id false).2.db = (Get env id false).2.db ∧
      (Get { env with emojiCache := cache } id false).2.emojiCache = cache) ∧
    (∀ e, (env.db.SelectOne id).1 = Except.ok e → (Get env id false).1 = (some e, none)) ∧
    (∀ err, (env.db.SelectOne id).1 = Except.error err →
      (Get env id false).1 = (none, some (NewAppError "SqlEmojiStore.Get"
        "store.sql_emoji.get.app_error" ("id=" ++ id ++ ", " ++ err.Error) StatusNotFound))) ∧
    (∀ e, env.db.nextFault = none → env.db.activeRows id = [e] →
      (Get env id false).1 = (some e, none)) ∧
    (env.db.nextFault = none → env.db.activeRows id = [] →
      (Get env id false).1 = (none, some (NewAppError "SqlEmojiStore.Get"
        "store.sql_emoji.get.app_error" ("id=" ++ id ++ ", " ++ SqlError.ErrNoRows.Error)
        StatusNotFound))) := by
  have hE : ∀ (en : Env) err, (en.db.SelectOne id).1 = Except.error err →
      Get en id false = _ :=
    fun en err h => (Get_read en id false (Or.inl rfl)).trans (GetFromReplica_error _ id false err h)
  have hO : ∀ (en : Env) e, (en.db.SelectOne id).1 = Except.ok e →
      Get en id false = _ :=
    fun en e h => (Get_read en id false (Or.inl rfl)).trans (GetFromReplica_ok _ id false e h)
  have hframe : ∀ en : Env, (Get en id false).2.emojiCache = en.emojiCache := by
    intro en
    cases hs : (en.db.SelectOne id).1 with
    | error err => rw [hE en err hs]
    | ok e => rw [hO en e hs]; rfl
  have hcalls : (Get env id false).2.cacheCalls = env.cacheCalls := by
    cases hs : (env.db.SelectOne id).1 with
    | error err => rw [hE env err hs]; rfl
    | ok e => rw [hO env e hs]; rfl
  refine ⟨hframe env, hcalls, ?_, ?_, ?_, ?_, ?_⟩
  · intro cache
    refine ⟨?_, ?_, hframe { env with emojiCache := cache }⟩
    · cases hs : (env.db.SelectOne id).1 with
      | error err => rw [hE env err hs, hE { env with emojiCache := cache } err hs]
      | ok e => rw [hO env e hs, hO { env with emojiCache := cache } e hs]
    · cases hs : (env.db.SelectOne id).1 with
      | error err => rw [hE env err hs, hE { env with emojiCache := cache } err hs]
      | ok e => rw [hO env e hs, hO { env with emojiCache := cache } e hs]
  · intro e h
    rw [hO env e h]
  · intro err h
    rw [hE env err h]
  · intro e hok hrow
    rw [hO env e (Database.SelectOne_one env.db id e hok hrow)]
  · intro hok hrow
    rw [hE env _ (Database.SelectOne_none env.db id hok hrow)]

theorem Get_uncached_ignores_cache_witness :
    warmEnv.db.nextFault = none ∧ warmEnv.db.activeRows "e1" = [sampleEmoji] ∧
    (Get warmEnv "e1" false).1 = (some sampleEmoji, none) ∧
    warmEnv.db.activeRows "e2" = [] ∧
    (Get warmEnv "e2" false).1 = (none, some (NewAppError "SqlEmojiStore.Get"
        "store.sql_emoji.get.app_error" ("id=" ++ "e2" ++ ", " ++ SqlError.ErrNoRows.Error)
        StatusNotFound)) :=
  ⟨by decide, by decide,
    (Get_uncached_ignores_cache warmEnv "e1").2.2.2.2.2.1 sampleEmoji (by decide) (by decide),
    by decide,
    (Get_uncached_ignores_cache warmEnv "e2").2.2.2.2.2.2 (by decide) (by decide)⟩

/-! ## `SqlEmojiStore.Delete` -/

theorem Database.Exec_fault (db : Database) (id : String) (t u : Int) (msg : String)
    (h : db.nextFault = some msg) :
    db.Exec id t u = (Except.error (SqlError.failure msg),
      { db with faults := db.faults.tail, log := db.log ++ [Statement.softDelete id t u] }) := by
  unfold Database.Exec Database.receive
  rw [h]

theorem Database.Exec_ok (db : Database) (id : String) (t u : Int)
    (h : db.nextFault = none) :
    db.Exec id t u = (Except.ok (db.activeRows id).length,
      { db with
        faults := db.faults.tail
        log := db.log ++ [Statement.softDelete id t u]
        rows := db.rows.map (fun e =>
          if activeWithId id e then { e with DeleteAt := t, UpdateAt := u } else e) }) := by
  unfold Database.Exec Database.receive
  rw [h]
  rfl

theorem Database.Exec_ok_inv (db : Database) (id : String) (t u : Int) (n : Nat)
    (h : (db.Exec id t u).1 = Except.ok n) :
    db.nextFault = none ∧ (db.activeRows id).length = n := by
  cases hf : db.nextFault with
  | some msg =>
    rw [Database.Exec_fault db id t u msg hf] at h
    cases h
  | none =>
    rw [Database.Exec_ok db id t u hf] at h
    simp only [Except.ok.injEq] at h
    exact ⟨rfl, h⟩

theorem map_softDelete_of_no_active (rows : List Emoji) (id : String) (t u : Int)
    (h : rows.filter (activeWithId id) = []) :
    rows.map (fun e =>
      if activeWithId id e then { e with DeleteAt := t, UpdateAt := u } else e) = rows := by
  induction rows with
  | nil => rfl
  | cons a r ih =>
    cases ha : activeWithId id a
    · simp only [List.filter_cons, ha] at h
      simp only [List.map_cons, ha]
      rw [ih (by simpa using h)]
      simp
    · simp [List.filter_cons, ha] at h

theorem filter_active_map_softDelete (rows : List Emoji) (id : String) (t u : Int)
    (ht : t ≠ 0) :
    (rows.map (fun e =>
      if activeWithId id e then { e with DeleteAt := t, UpdateAt := u } else e)).filter
        (activeWithId id) = [] := by
  rw [List.filter_eq_nil_iff]
  intro x hx
  rw [List.mem_map] at hx
  obtain ⟨e, _, rfl⟩ := hx
  cases ha : activeWithId id e
  · simp [ha]
  · simp [ha, activeWithId, ht]

theorem Delete_exec_error (env : Env) (id : String) (time : Int) (e : SqlError)
    (h : (env.db.Exec id time time).1 = Except.error e) :
    Delete env id time =
      (Outcome.ret (some (NewAppError "SqlEmojiStore.Delete" "store.sql_emoji.delete.app_error"
        ("id=" ++ id ++ ", err=" ++ e.Error) StatusInternalServerError)),
       { env with db := (env.db.Exec id time time).2 }) := by
  unfold Delete
  cases hs : env.db.Exec id time time with
  | mk r db1 =>
    rw [hs] at h
    simp only at h
    subst h
    rfl

theorem Delete_exec_zero (env : Env) (id : String) (time : Int)
    (h : (env.db.Exec id time time).1 = Except.ok 0) :
    Delete env id time =
      ((errorText none).bind (fun text =>
        Outcome.ret (some (NewAppError "SqlEmojiStore.Delete" "store.sql_emoji.delete.no_results"
          ("id=" ++ id ++ ", err=" ++ text) StatusBadRequest))),
       { env with db := (env.db.Exec id time time).2 }) := by
  unfold Delete
  cases hs : env.db.Exec id time time with
  | mk r db1 =>
    rw [hs] at h
    simp only at h
    subst h
    rfl

theorem Delete_exec_rows (env : Env) (id : String) (time : Int) (n : Nat)
    (h : (env.db.Exec id time time).1 = Except.ok (n + 1)) :
    Delete env id time =
      (Outcome.ret none,
       { env with
         db := (env.db.Exec id time time).2
         emojiCache := env.emojiCache.Remove id
         cacheCalls := env.cacheCalls ++ [CacheCall.Remove id] }) := by
  unfold Delete
  cases hs : env.db.Exec id time time with
  | mk r db1 =>
    rw [hs] at h
    simp only at h
    subst h
    rfl

theorem Delete_cases (env : Env) (id : String) (time : Int) :
    (∃ e, (env.db.Exec id time time).1 = Except.error e) ∨
    (env.db.Exec id time time).1 = Except.ok 0 ∨
    (∃ n, (env.db.Exec id time time).1 = Except.ok (n + 1)) := by
  cases hs : (env.db.Exec id time time).1 with
  | error e => exact Or.inl ⟨e, rfl⟩
  | ok n =>
    cases n with
    | zero => exact Or.inr (Or.inl rfl)
    | succ n => exact Or.inr (Or.inr ⟨n, rfl⟩)

/-- Claim C7. When `Delete id time` returns nil, the cache afterwards is the
old cache with `id` removed (the one call made on it is `Remove id`): no entry
is resident under `id` and every other key has the resident entry it had
before. When `Delete` returns an error, and in fact whenever it does not return
nil, the cache is the cache before the call and no call was made on it. -/
theorem Delete_cache_frame (env : Env) (id : String) (time : Int) :
    ((Delete env id time).1 = Outcome.ret none →
      (Delete env id time).2.emojiCache = env.emojiCache.Remove id ∧
      (Delete env id time).2.cacheCalls = env.cacheCalls ++ [CacheCall.Remove id] ∧
      (Delete env id time).2.emojiCache.resident id = none ∧
      (∀ now, (Delete env id time).2.emojiCache.peek now id = none) ∧
      ∀ key, key ≠ id →
        (Delete env id time).2.emojiCache.resident key = env.emojiCache.resident key) ∧
    (∀ err, (Delete env id time).1 = Outcome.ret (some err) →
      (Delete env id time).2.emojiCache = env.emojiCache ∧
      (Delete env id time).2.cacheCalls = env.cacheCalls) ∧
    ((Delete env id time).1 ≠ Outcome.ret none →
      (Delete env id time).2.emojiCache = env.emojiCache ∧
      (Delete env id time).2.cacheCalls = env.cacheCalls) := by
  rcases Delete_cases env id time with ⟨e, h⟩ | h | ⟨n, h⟩
  · have hD := Delete_exec_error env id time e h
    refine ⟨?_, ?_, ?_⟩
    · intro hr
      rw [hD] at hr
      cases hr
    · intro err _
      rw [hD]
      exact ⟨rfl, rfl⟩
    · intro _
      rw [hD]
      exact ⟨rfl, rfl⟩
  · have hD := Delete_exec_zero env id time h
    refine ⟨?_, ?_, ?_⟩
    · intro hr
      rw [hD] at hr
      cases hr
    · intro err _
      rw [hD]
      exact ⟨rfl, rfl⟩
    · intro _
      rw [hD]
      exact ⟨rfl, rfl⟩
  · have hD := Delete_exec_rows env id time n h
    refine ⟨?_, ?_, ?_⟩
    · intro _
      rw [hD]
      refine ⟨rfl, rfl, Cache.resident_Remove_self _ _, ?_, ?_⟩
      · intro now
        show (env.emojiCache.Remove id).peek now id = none
        unfold Cache.peek
        rw [Cache.resident_Remove_self]
      · intro key hkey
        exact Cache.resident_Remove_other _ _ _ hkey
    · intro err hr
      rw [hD] at hr
      cases hr
    · intro hr
      rw [hD] at hr
      exact absurd rfl hr

theorem Delete_cache_frame_witness :
    (Delete warmEnv "e1" 300).1 = Outcome.ret none ∧
    (Delete warmEnv "e1" 300).2.emojiCache.resident "e1" = none ∧
    warmEnv.emojiCache.resident "e1"
      = some { key := "e1", value := sampleEmoji, expires := 1900 } ∧
    (Delete faultyEnv "e1" 300).1 = Outcome.ret (some (NewAppError "SqlEmojiStore.Delete"
      "store.sql_emoji.delete.app_error" "id=e1, err=driver: bad connection"
      StatusInternalServerError)) ∧
    (Delete faultyEnv "e1" 300).2.emojiCache = faultyEnv.emojiCache :=
  ⟨by decide, ((Delete_cache_frame warmEnv "e1" 300).1 (by decide)).2.2.1, by decide, by decide,
    ((Delete_cache_frame faultyEnv "e1" 300).2.1
      (NewAppError "SqlEmojiStore.Delete" "store.sql_emoji.delete.app_error"
        "id=e1, err=driver: bad connection" StatusInternalServerError) (by decide)).1⟩

theorem Database.SelectOne_no_active (db : Database) (id : String)
    (hrow : db.activeRows id = []) :
    ∃ err, (db.SelectOne id).1 = Except.error err := by
  cases hf : db.nextFault with
  | some msg => exact ⟨_, Database.SelectOne_fault db id msg hf⟩
  | none => exact ⟨_, Database.SelectOne_none db id hf hrow⟩

theorem Database.activeRows_Exec (db : Database) (id : String) (t u : Int) (n : Nat)
    (h : (db.Exec id t u).1 = Except.ok n) (ht : t ≠ 0) :
    (db.Exec id t u).2.activeRows id = [] := by
  rw [Database.Exec_ok db id t u (Database.Exec_ok_inv db id t u n h).1]
  exact filter_active_map_softDelete db.rows id t u ht

/-- Claim C8, as the code has it. When the conditional update executes without
error but affects zero rows, `Delete id time` does not report success (its
outcome is not a nil error) and it returns no error of the not-found kind, with
status 404, to its caller; it makes no call on the cache, and the cache and the
table rows are left as they were. -/
theorem Delete_zero_rows_no_success_no_404 (env : Env) (id : String) (time : Int)
    (hzero : (env.db.Exec id time time).1 = Except.ok 0) :
    (Delete env id time).1 ≠ Outcome.ret none ∧
    (¬ ∃ err, (Delete env id time).1 = Outcome.ret (some err) ∧
      err.StatusCode = StatusNotFound) ∧
    (Delete env id time).2.emojiCache = env.emojiCache ∧
    (Delete env id time).2.cacheCalls = env.cacheCalls ∧
    (Delete env id time).2.db.rows = env.db.rows := by
  have hD := Delete_exec_zero env id time hzero
  obtain ⟨hf, hlen⟩ := Database.Exec_ok_inv env.db id time time 0 hzero
  have hnil : env.db.rows.filter (activeWithId id) = [] := List.length_eq_zero.mp hlen
  refine ⟨?_, ?_, by rw [hD], by rw [hD], ?_⟩
  · rw [hD]
    intro h
    cases h
  · rw [hD]
    rintro ⟨err, h, _⟩
    cases h
  · rw [hD, Database.Exec_ok env.db id time time hf]
    exact map_softDelete_of_no_active env.db.rows id time time hnil

theorem Delete_zero_rows_no_success_no_404_witness :
    (coldEnv.db.Exec "e2" 50 50).1 = Except.ok 0 ∧
    (Delete coldEnv "e2" 50).1 ≠ Outcome.ret none ∧
    (Delete coldEnv "e2" 50).2.emojiCache = coldEnv.emojiCache ∧
    (Delete coldEnv "e2" 50).2.db.rows = coldEnv.db.rows :=
  ⟨rfl, (Delete_zero_rows_no_success_no_404 coldEnv "e2" 50 rfl).1,
    (Delete_zero_rows_no_success_no_404 coldEnv "e2" 50 rfl).2.2.1,
    (Delete_zero_rows_no_success_no_404 coldEnv "e2" 50 rfl).2.2.2.2⟩

/-- Counterexample to claim C8 as stated: on the sample database the update for
the already deleted id "e2", and for the unknown id "zz", executes without error
and affects zero rows, yet `Delete` does not return a not-found error: it
returns no error value at all. -/
theorem Delete_zero_rows_returns_no_404 :
    (coldEnv.db.Exec "e2" 50 50).1 = Except.ok 0 ∧
    (coldEnv.db.Exec "zz" 50 50).1 = Except.ok 0 ∧
    (¬ ∃ err, (Delete coldEnv "e2" 50).1 = Outcome.ret (some err) ∧
      err.StatusCode = StatusNotFound) ∧
    (¬ ∃ err, (Delete coldEnv "zz" 50).1 = Outcome.ret (some err) ∧
      err.StatusCode = StatusNotFound) ∧
    (Delete coldEnv "e2" 50).1 = Outcome.panic
      (PanicValue.runtimeError "invalid memory address or nil pointer dereference") := by
  have h2 : (Delete coldEnv "e2" 50).1 = Outcome.panic
      (PanicValue.runtimeError "invalid memory address or nil pointer dereference") := by decide
  have hz : (Delete coldEnv "zz" 50).1 = Outcome.panic
      (PanicValue.runtimeError "invalid memory address or nil pointer dereference") := by decide
  refine ⟨rfl, rfl, ?_, ?_, h2⟩
  · rintro ⟨err, h, _⟩
    rw [h2] at h
    cases h
  · rintro ⟨err, h, _⟩
    rw [hz] at h
    cases h

/-- Claim C9, the behaviour of the code at the failing input. With a healthy
transport, an active row under `id` and a non-zero `t1`, the first
`Delete id t1` returns nil, and the second `Delete id t2` does not return at
all: the update affects zero rows and the branch handling that evaluates
`err.Error()` on the nil error of the update, a nil dereference. -/
theorem Delete_twice_second_panics (env : Env) (id : String) (t1 t2 : Int)
    (hok1 : env.db.nextFault = none)
    (hactive : env.db.activeRows id ≠ [])
    (ht1 : t1 ≠ 0)
    (hok2 : (Delete env id t1).2.db.nextFault = none) :
    (Delete env id t1).1 = Outcome.ret none ∧
    (Delete (Delete env id t1).2 id t2).1 = Outcome.panic
      (PanicValue.runtimeError "invalid memory address or nil pointer dereference") ∧
    (∀ r, (Delete (Delete env id t1).2 id t2).1 ≠ Outcome.ret r) := by
  have hex : (env.db.Exec id t1 t1).1 = Except.ok ((env.db.activeRows id).length - 1 + 1) := by
    rw [Database.Exec_ok env.db id t1 t1 hok1]
    have : 0 < (env.db.activeRows id).length := List.length_pos.mpr hactive
    simp only [Except.ok.injEq]
    omega
  have hD := Delete_exec_rows env id t1 _ hex
  have hrows2 : (Delete env id t1).2.db.activeRows id = [] := by
    rw [hD]
    exact Database.activeRows_Exec env.db id t1 t1 _ hex ht1
  have hex2 : ((Delete env id t1).2.db.Exec id t2 t2).1 = Except.ok 0 := by
    rw [Database.Exec_ok _ id t2 t2 hok2, hrows2]
    rfl
  have hD2 := Delete_exec_zero (Delete env id t1).2 id t2 hex2
  have hp : (Delete (Delete env id t1).2 id t2).1 = Outcome.panic
      (PanicValue.runtimeError "invalid memory address or nil pointer dereference") := by
    rw [hD2]
    rfl
  refine ⟨by rw [hD], hp, ?_⟩
  intro r h
  rw [hp] at h
  cases h

theorem Delete_twice_second_panics_witness :
    coldEnv.db.nextFault = none ∧ coldEnv.db.activeRows "e1" ≠ [] ∧
    (Delete coldEnv "e1" 50).1 = Outcome.ret none ∧
    (Delete (Delete coldEnv "e1" 50).2 "e1" 60).1 = Outcome.panic
      (PanicValue.runtimeError "invalid memory address or nil pointer dereference") :=
  ⟨by decide, by decide,
    (Delete_twice_second_panics coldEnv "e1" 50 60 (by decide) (by decide) (by decide)
      (by decide)).1,
    (Delete_twice_second_panics coldEnv "e1" 50 60 (by decide) (by decide) (by decide)
      (by decide)).2.1⟩

/-- Claim C10, as the code has it. After `Delete id time` has returned nil with
a non-zero `time`, a following `Get id allowFromCache` on the resulting state,
at any later clock value and for either value of the flag, returns a nil record
and an error with the not-found status 404. -/
theorem Delete_then_Get_not_found (env : Env) (id : String) (time : Int)
    (hdel : (Delete env id time).1 = Outcome.ret none)
    (htime : time ≠ 0) (allowFromCache : Bool) (now2 : Nat) :
    ∃ err, (Get { (Delete env id time).2 with now := now2 } id allowFromCache).1
        = (none, some err) ∧
      err.StatusCode = StatusNotFound := by
  rcases Delete_cases env id time with ⟨e, h⟩ | h | ⟨n, h⟩
  · rw [Delete_exec_error env id time e h] at hdel
    cases hdel
  · rw [Delete_exec_zero env id time h] at hdel
    cases hdel
  · have hD := Delete_exec_rows env id time n h
    have hrows : (env.db.Exec id time time).2.activeRows id = [] :=
      Database.activeRows_Exec env.db id time time _ h htime
    obtain ⟨err, herr⟩ := Database.SelectOne_no_active _ id hrows
    rw [hD]
    have hpeek : (env.emojiCache.Remove id).peek now2 id = none := by
      unfold Cache.peek
      rw [Cache.resident_Remove_self]
    rw [Get_read _ id allowFromCache (Or.inr hpeek), GetFromReplica_error _ id allowFromCache err herr]
    exact ⟨_, rfl, rfl⟩

theorem Delete_then_Get_not_found_witness :
    (Delete warmEnv "e1" 300).1 = Outcome.ret none ∧
    (∃ err, (Get { (Delete warmEnv "e1" 300).2 with now := 301 } "e1" true).1
        = (none, some err) ∧ err.StatusCode = StatusNotFound) ∧
    (∃ err, (Get { (Delete warmEnv "e1" 300).2 with now := 301 } "e1" false).1
        = (none, some err) ∧ err.StatusCode = StatusNotFound) :=
  ⟨by decide,
    Delete_then_Get_not_found warmEnv "e1" 300 (by decide) (by decide) true 301,
    Delete_then_Get_not_found warmEnv "e1" 300 (by decide) (by decide) false 301⟩

/-- Counterexample to claim C10 as stated: with the delete time 0 the update
matches the active row, `Delete` returns nil, and the row is still active
afterwards, so the following `Get` finds it for either value of the flag. -/
theorem Delete_at_zero_then_Get_finds :
    (Delete warmEnv "e1" 0).1 = Outcome.ret none ∧
    (Get (Delete warmEnv "e1" 0).2 "e1" true).1
      = (some { sampleEmoji with UpdateAt := 0 }, none) ∧
    (Get (Delete warmEnv "e1" 0).2 "e1" false).1
      = (some { sampleEmoji with UpdateAt := 0 }, none) := by
  decide

/-! ## `SqlEmojiStore.GetByName` -/

theorem GetByName_ok (env : Env) (name : String) (e : Emoji)
    (h : (env.db.SelectOneByName name).1 = Except.ok e) :
    GetByName env name = ((some e, none), { env with db := (env.db.SelectOneByName name).2 }) := by
  unfold GetByName
  cases hs : env.db.SelectOneByName name with
  | mk r db1 =>
    rw [hs] at h
    simp only at h
    subst h
    rfl

theorem GetByName_no_rows (env : Env) (name : String)
    (h : (env.db.SelectOneByName name).1 = Except.error SqlError.ErrNoRows) :
    GetByName env name =
      ((none, some (NewAppError "SqlEmojiStore.GetByName" "store.sql_emoji.get_by_name.app_error"
          ("name=" ++ name ++ ", " ++ SqlError.ErrNoRows.Error) StatusNotFound)),
       { env with db := (env.db.SelectOneByName name).2 }) := by
  unfold GetByName
  cases hs : env.db.SelectOneByName name with
  | mk r db1 =>
    rw [hs] at h
    simp only at h
    subst h
    rfl

theorem GetByName_failure (env : Env) (name msg : String)
    (h : (env.db.SelectOneByName name).1 = Except.error (SqlError.failure msg)) :
    GetByName env name =
      ((none, some (NewAppError "SqlEmojiStore.GetByName" "store.sql_emoji.get_by_name.app_error"
          ("name=" ++ name ++ ", " ++ msg) StatusInternalServerError)),
       { env with db := (env.db.SelectOneByName name).2 }) := by
  unfold GetByName
  cases hs : env.db.SelectOneByName name with
  | mk r db1 =>
    rw [hs] at h
    simp only at h
    subst h
    rfl

theorem Database.SelectOneByName_ok_mem (db : Database) (name : String) (e : Emoji)
    (h : (db.SelectOneByName name).1 = Except.ok e) :
    e ∈ db.rows ∧ e.Name = name ∧ e.DeleteAt = 0 := by
  unfold Database.SelectOneByName Database.receive at h
  cases hf : db.nextFault with
  | some msg => simp [hf] at h
  | none =>
    simp only [hf] at h
    cases hl : db.rows.filter (activeWithName name) with
    | nil => simp [hl] at h
    | cons a t =>
      cases t with
      | cons b t => simp [hl] at h
      | nil =>
        simp only [hl, Except.ok.injEq] at h
        subst h
        have hm : a ∈ db.rows.filter (activeWithName name) := by rw [hl]; simp
        rw [List.mem_filter] at hm
        refine ⟨hm.1, ?_⟩
        simpa [activeWithName] using hm.2

/-- Claim C11. `GetByName` makes no call on the cache and leaves it, and the
metrics, as they were, and its result does not depend on the cache. When the
backend select succeeds it returns the row found, an active row of that name,
with no error; when the select reports `sql.ErrNoRows` it returns an error with
status 404; for every other select failure it returns an error with status 500;
so the error returned has status 404 exactly when the select reported
`sql.ErrNoRows`, and status 500 exactly when it failed otherwise. -/
theorem GetByName_status (env : Env) (name : String) :
    (GetByName env name).2.emojiCache = env.emojiCache ∧
    (GetByName env name).2.cacheCalls = env.cacheCalls ∧
    (GetByName env name).2.metrics = env.metrics ∧
    (∀ cache : Cache, (GetByName { env with emojiCache := cache } name).1
      = (GetByName env name).1) ∧
    (∀ e, (env.db.SelectOneByName name).1 = Except.ok e →
      (GetByName env name).1 = (some e, none) ∧
      e ∈ env.db.rows ∧ e.Name = name ∧ e.DeleteAt = 0) ∧
    ((env.db.SelectOneByName name).1 = Except.error SqlError.ErrNoRows →
      (GetByName env name).1 = (none, some (NewAppError "SqlEmojiStore.GetByName"
        "store.sql_emoji.get_by_name.app_error"
        ("name=" ++ name ++ ", " ++ SqlError.ErrNoRows.Error) StatusNotFound))) ∧
    (∀ msg, (env.db.SelectOneByName name).1 = Except.error (SqlError.failure msg) →
      (GetByName env name).1 = (none, some (NewAppError "SqlEmojiStore.GetByName"
        "store.sql_emoji.get_by_name.app_error"
        ("name=" ++ name ++ ", " ++ msg) StatusInternalServerError))) ∧
    (∀ err, (GetByName env name).1.2 = some err →
      (err.StatusCode = StatusNotFound ↔
        (env.db.SelectOneByName name).1 = Except.error SqlError.ErrNoRows) ∧
      (err.StatusCode = StatusInternalServerError ↔
        ∃ msg, (env.db.SelectOneByName name).1 = Except.error (SqlError.failure msg))) := by
  have key : ∀ en : Env, en.db = env.db →
      (∃ e, (env.db.SelectOneByName name).1 = Except.ok e ∧
        GetByName en name = ((some e, none), { en with db := (en.db.SelectOneByName name).2 })) ∨
      ((env.db.SelectOneByName name).1 = Except.error SqlError.ErrNoRows ∧
        GetByName en name = ((none, some (NewAppError "SqlEmojiStore.GetByName"
          "store.sql_emoji.get_by_name.app_error"
          ("name=" ++ name ++ ", " ++ SqlError.ErrNoRows.Error) StatusNotFound)),
          { en with db := (en.db.SelectOneByName name).2 })) ∨
      (∃ msg, (env.db.SelectOneByName name).1 = Except.error (SqlError.failure msg) ∧
        GetByName en name = ((none, some (NewAppError "SqlEmojiStore.GetByName"
          "store.sql_emoji.get_by_name.app_error"
          ("name=" ++ name ++ ", " ++ msg) StatusInternalServerError)),
          { en with db := (en.db.SelectOneByName name).2 })) := by
    intro en hdb
    cases hs : (env.db.SelectOneByName name).1 with
    | ok e => exact Or.inl ⟨e, rfl, GetByName_ok en name e (by rw [hdb]; exact hs)⟩
    | error err =>
      cases err with
      | ErrNoRows => exact Or.inr (Or.inl ⟨rfl, GetByName_no_rows en name (by rw [hdb]; exact hs)⟩)
      | failure msg =>
        exact Or.inr (Or.inr ⟨msg, rfl, GetByName_failure en name msg (by rw [hdb]; exact hs)⟩)
  refine ⟨?_, ?_, ?_, ?_, ?_, ?_, ?_, ?_⟩
  · rcases key env rfl with ⟨e, _, h⟩ | ⟨_, h⟩ | ⟨msg, _, h⟩ <;> rw [h]
  · rcases key env rfl with ⟨e, _, h⟩ | ⟨_, h⟩ | ⟨msg, _, h⟩ <;> rw [h]
  · rcases key env rfl with ⟨e, _, h⟩ | ⟨_, h⟩ | ⟨msg, _, h⟩ <;> rw [h]
  · intro cache
    rcases key env rfl with ⟨e, hs, h⟩ | ⟨hs, h⟩ | ⟨msg, hs, h⟩
    · rcases key { env with emojiCache := cache } rfl with ⟨e2, hs2, h2⟩ | ⟨hs2, _⟩ | ⟨m2, hs2, _⟩
      · rw [hs] at hs2
        cases hs2
        rw [h, h2]
      · rw [hs] at hs2; cases hs2
      · rw [hs] at hs2; cases hs2
    · rcases key { env with emojiCache := cache } rfl with ⟨e2, hs2, _⟩ | ⟨_, h2⟩ | ⟨m2, hs2, _⟩
      · rw [hs] at hs2; cases hs2
      · rw [h, h2]
      · rw [hs] at hs2; cases hs2
    · rcases key { env with emojiCache := cache } rfl with ⟨e2, hs2, _⟩ | ⟨hs2, _⟩ | ⟨m2, hs2, h2⟩
      · rw [hs] at hs2; cases hs2
      · rw [hs] at hs2; cases hs2
      · rw [hs] at hs2
        cases hs2
        rw [h, h2]
  · intro e hs
    exact ⟨by rw [GetByName_ok env name e hs], Database.SelectOneByName_ok_mem env.db name e hs⟩
  · intro hs
    rw [GetByName_no_rows env name hs]
  · intro msg hs
    rw [GetByName_failure env name msg hs]
  · intro err herr
    rcases key env rfl with ⟨e, hs, h⟩ | ⟨hs, h⟩ | ⟨msg, hs, h⟩
    · rw [h] at herr
      cases herr
    · rw [h] at herr
      simp only [Option.some.injEq] at herr
      subst herr
      refine ⟨⟨fun _ => hs, fun _ => rfl⟩, ⟨fun hc => ?_, fun ⟨m, hm⟩ => ?_⟩⟩
      · simp [NewAppError, StatusNotFound, StatusInternalServerError] at hc
      · rw [hs] at hm; cases hm
    · rw [h] at herr
      simp only [Option.some.injEq] at herr
      subst herr
      refine ⟨⟨fun hc => ?_, fun hn => ?_⟩, ⟨fun _ => ⟨msg, hs⟩, fun _ => rfl⟩⟩
      · simp [NewAppError, StatusNotFound, StatusInternalServerError] at hc
      · rw [hs] at hn; cases hn

theorem GetByName_status_witness :
    (coldEnv.db.SelectOneByName "smile").1 = Except.ok sampleEmoji ∧
    (GetByName coldEnv "smile").1 = (some sampleEmoji, none) ∧
    (coldEnv.db.SelectOneByName "frown").1 = Except.error SqlError.ErrNoRows ∧
    (GetByName coldEnv "frown").1 = (none, some (NewAppError "SqlEmojiStore.GetByName"
        "store.sql_emoji.get_by_name.app_error"
        ("name=" ++ "frown" ++ ", " ++ SqlError.ErrNoRows.Error) StatusNotFound)) ∧
    (faultyEnv.db.SelectOneByName "smile").1
      = Except.error (SqlError.failure "driver: bad connection") ∧
    (GetByName faultyEnv "smile").1 = (none, some (NewAppError "SqlEmojiStore.GetByName"
        "store.sql_emoji.get_by_name.app_error"
        ("name=" ++ "smile" ++ ", " ++ "driver: bad connection") StatusInternalServerError)) :=
  ⟨rfl, ((GetByName_status coldEnv "smile").2.2.2.2.1 sampleEmoji rfl).1,
    rfl, (GetByName_status coldEnv "frown").2.2.2.2.2.1 rfl,
    rfl, (GetByName_status faultyEnv "smile").2.2.2.2.2.2.1 "driver: bad connection" rfl⟩

/-! ## `SqlEmojiStore.Save` -/

theorem Cache.resident_stampInPlace_other (c : Cache) (heldBy : Option String)
    (old new : Emoji) (key : String) (h : heldBy ≠ some key) :
    (c.stampInPlace heldBy old new).resident key = c.resident key := by
  cases heldBy with
  | none => rfl
  | some k =>
    have hk : k ≠ key := fun hc => h (by rw [hc])
    unfold Cache.stampInPlace Cache.resident
    simp only
    induction c.items with
    | nil => rfl
    | cons a t ih =>
      rw [List.map_cons, List.find?_cons, List.find?_cons, ih]
      by_cases hak : a.key = key
      · have hne : ¬ a.key = k := fun hc => hk (hc.symm.trans hak)
        rw [if_neg (by simp [hne])]
      · have hb : (a.key == key) = false := by simpa using hak
        split_ifs <;> simp only [hb]

theorem Cache.shape_stampInPlace (c : Cache) (heldBy : Option String) (old new : Emoji) :
    (c.stampInPlace heldBy old new).size = c.size ∧
    (c.stampInPlace heldBy old new).items.map (fun e => (e.key, e.expires))
      = c.items.map (fun e => (e.key, e.expires)) := by
  cases heldBy with
  | none => exact ⟨rfl, rfl⟩
  | some k =>
    refine ⟨rfl, ?_⟩
    unfold Cache.stampInPlace
    simp only [List.map_map]
    apply List.map_congr_left
    intro e _
    simp only [Function.comp]
    split <;> rfl

theorem Save_invalid (PreSave : Emoji → Emoji) (IsValid : Emoji → Option AppError) (env : Env)
    (emoji : Emoji) (heldBy : Option String) (err : AppError)
    (h : IsValid (PreSave emoji) = some err) :
    Save PreSave IsValid env emoji heldBy =
      ((none, some err),
       { env with emojiCache := env.emojiCache.stampInPlace heldBy emoji (PreSave emoji) }) := by
  simp only [Save, h]

theorem Save_insert_error (PreSave : Emoji → Emoji) (IsValid : Emoji → Option AppError)
    (env : Env) (emoji : Emoji) (heldBy : Option String) (err : SqlError)
    (hv : IsValid (PreSave emoji) = none)
    (h : (env.db.Insert (PreSave emoji)).1 = some err) :
    Save PreSave IsValid env emoji heldBy =
      ((none, some (NewAppError "SqlEmojiStore.Save" "store.sql_emoji.save.app_error"
          ("id=" ++ (PreSave emoji).Id ++ ", " ++ err.Error) StatusInternalServerError)),
       { env with
         emojiCache := env.emojiCache.stampInPlace heldBy emoji (PreSave emoji)
         db := (env.db.Insert (PreSave emoji)).2 }) := by
  simp only [Save, hv]
  cases hs : env.db.Insert (PreSave emoji) with
  | mk r db1 =>
    rw [hs] at h
    simp only at h
    subst h
    rfl

theorem Save_ok (PreSave : Emoji → Emoji) (IsValid : Emoji → Option AppError)
    (env : Env) (emoji : Emoji) (heldBy : Option String)
    (hv : IsValid (PreSave emoji) = none)
    (h : (env.db.Insert (PreSave emoji)).1 = none) :
    Save PreSave IsValid env emoji heldBy =
      ((some (PreSave emoji), none),
       { env with
         emojiCache := env.emojiCache.stampInPlace heldBy emoji (PreSave emoji)
         db := (env.db.Insert (PreSave emoji)).2 }) := by
  simp only [Save, hv]
  cases hs : env.db.Insert (PreSave emoji) with
  | mk r db1 =>
    rw [hs] at h
    simp only at h
    subst h
    rfl

theorem Save_cases (PreSave : Emoji → Emoji) (IsValid : Emoji → Option AppError)
    (env : Env) (emoji : Emoji) (heldBy : Option String) :
    (∃ err, IsValid (PreSave emoji) = some err ∧
      Save PreSave IsValid env emoji heldBy =
        ((none, some err),
         { env with
           emojiCache := env.emojiCache.stampInPlace heldBy emoji (PreSave emoji) })) ∨
    (∃ err, IsValid (PreSave emoji) = none ∧ (env.db.Insert (PreSave emoji)).1 = some err ∧
      Save PreSave IsValid env emoji heldBy =
        ((none, some (NewAppError "SqlEmojiStore.Save" "store.sql_emoji.save.app_error"
            ("id=" ++ (PreSave emoji).Id ++ ", " ++ err.Error) StatusInternalServerError)),
         { env with
           emojiCache := env.emojiCache.stampInPlace heldBy emoji (PreSave emoji)
           db := (env.db.Insert (PreSave emoji)).2 })) ∨
    (IsValid (PreSave emoji) = none ∧ (env.db.Insert (PreSave emoji)).1 = none ∧
      Save PreSave IsValid env emoji heldBy =
        ((some (PreSave emoji), none),
         { env with
           emojiCache := env.emojiCache.stampInPlace heldBy emoji (PreSave emoji)
           db := (env.db.Insert (PreSave emoji)).2 })) := by
  cases hv : IsValid (PreSave emoji) with
  | some err => exact Or.inl ⟨err, rfl, Save_invalid PreSave IsValid env emoji heldBy err hv⟩
  | none =>
    cases hi : (env.db.Insert (PreSave emoji)).1 with
    | some err =>
      exact Or.inr (Or.inl
        ⟨err, rfl, rfl, Save_insert_error PreSave IsValid env emoji heldBy err hv hi⟩)
    | none => exact Or.inr (Or.inr ⟨rfl, rfl, Save_ok PreSave IsValid env emoji heldBy hv hi⟩)

theorem Save_cache (PreSave : Emoji → Emoji) (IsValid : Emoji → Option AppError)
    (env : Env) (emoji : Emoji) (heldBy : Option String) :
    (Save PreSave IsValid env emoji heldBy).2.emojiCache
      = env.emojiCache.stampInPlace heldBy emoji (PreSave emoji) ∧
    (Save PreSave IsValid env emoji heldBy).2.cacheCalls = env.cacheCalls := by
  rcases Save_cases PreSave IsValid env emoji heldBy with
    ⟨err, _, h⟩ | ⟨err, _, _, h⟩ | ⟨_, _, h⟩ <;> rw [h] <;> exact ⟨rfl, rfl⟩

/-- Claim C13, as the code has it. When the validation of the stamped record
fails with `err`, `Save` returns `(nil, err)` and no statement reaches the
database, whose state (rows, statement log, pending transport outcomes) is the
state before the call; when moreover the object passed is held by no cache
entry, the whole state is the state before the call. In every outcome `Save`
makes no call on the cache and the cache afterwards is the cache before with the
object passed stamped in place: it is exactly the cache before when no entry
holds the object; otherwise the entry holding it carries the stamped record,
while the capacity, every key and expiry, and the entry of every other key stay
as they were. -/
theorem Save_validation_failure (PreSave : Emoji → Emoji) (IsValid : Emoji → Option AppError)
    (env : Env) (emoji : Emoji) (heldBy : Option String) :
    (∀ err, IsValid (PreSave emoji) = some err →
      (Save PreSave IsValid env emoji heldBy).1 = (none, some err) ∧
      (Save PreSave IsValid env emoji heldBy).2.db = env.db ∧
      (Save PreSave IsValid env emoji heldBy).2.db.log = env.db.log ∧
      (heldBy = none → Save PreSave IsValid env emoji heldBy = ((none, some err), env))) ∧
    (Save PreSave IsValid env emoji heldBy).2.cacheCalls = env.cacheCalls ∧
    (Save PreSave IsValid env emoji heldBy).2.emojiCache
      = env.emojiCache.stampInPlace heldBy emoji (PreSave emoji) ∧
    (heldBy = none → (Save PreSave IsValid env emoji heldBy).2.emojiCache = env.emojiCache) ∧
    (∀ key, heldBy ≠ some key →
      (Save PreSave IsValid env emoji heldBy).2.emojiCache.resident key
        = env.emojiCache.resident key) ∧
    (Save PreSave IsValid env emoji heldBy).2.emojiCache.size = env.emojiCache.size ∧
    (Save PreSave IsValid env emoji heldBy).2.emojiCache.items.map (fun e => (e.key, e.expires))
      = env.emojiCache.items.map (fun e => (e.key, e.expires)) := by
  obtain ⟨hcache, hcalls⟩ := Save_cache PreSave IsValid env emoji heldBy
  refine ⟨?_, hcalls, hcache, ?_, ?_, ?_, ?_⟩
  · intro err h
    rw [Save_invalid PreSave IsValid env emoji heldBy err h]
    refine ⟨rfl, rfl, rfl, ?_⟩
    intro hn
    subst hn
    rfl
  · intro hn
    subst hn
    rw [hcache]
    rfl
  · intro key hkey
    rw [hcache]
    exact Cache.resident_stampInPlace_other _ _ _ _ key hkey
  · rw [hcache]
    exact (Cache.shape_stampInPlace _ _ _ _).1
  · rw [hcache]
    exact (Cache.shape_stampInPlace _ _ _ _).2

theorem Save_validation_failure_witness :
    Emoji.IsValid (Emoji.PreSave sampleId 77 namelessCandidate)
      = some (NewAppError "Emoji.IsValid" "model.emoji.name.app_error" "" StatusBadRequest) ∧
    Save (Emoji.PreSave sampleId 77) Emoji.IsValid coldEnv namelessCandidate none
      = ((none, some (NewAppError "Emoji.IsValid" "model.emoji.name.app_error" ""
          StatusBadRequest)), coldEnv) :=
  ⟨by decide,
    ((Save_validation_failure (Emoji.PreSave sampleId 77) Emoji.IsValid coldEnv
      namelessCandidate none).1 _ (by decide)).2.2.2 rfl⟩

/-- Counterexample to claim C13 as stated. A cached `Get` of "e4" returns the
pointer the cache now holds under "e4"; `Save` of that pointer stamps the object
in place, validation of the stamped record fails on the name, `Save` returns
`(nil, err)` without reaching the database, and the cache is not what it was:
the entry under "e4" now carries the stamped record, with another `Id`. The
same happens when validation passes and the insert fails (the pointer cached
under "e3"). -/
theorem Save_restamps_cached_record :
    (Get aliasEnv "e4" true).1 = (some oddEmoji, none) ∧
    (Get aliasEnv "e4" true).2.emojiCache.peek 100 "e4" = some oddEmoji ∧
    Emoji.IsValid (Emoji.PreSave sampleId 77 oddEmoji)
      = some (NewAppError "Emoji.IsValid" "model.emoji.name.app_error" "" StatusBadRequest) ∧
    (Save (Emoji.PreSave sampleId 77) Emoji.IsValid (Get aliasEnv "e4" true).2 oddEmoji
        (Get.heldBy "e4" true)).1
      = (none, some (NewAppError "Emoji.IsValid" "model.emoji.name.app_error" ""
          StatusBadRequest)) ∧
    (Save (Emoji.PreSave sampleId 77) Emoji.IsValid (Get aliasEnv "e4" true).2 oddEmoji
        (Get.heldBy "e4" true)).2.emojiCache ≠ (Get aliasEnv "e4" true).2.emojiCache ∧
    (Save (Emoji.PreSave sampleId 77) Emoji.IsValid (Get aliasEnv "e4" true).2 oddEmoji
        (Get.heldBy "e4" true)).2.emojiCache.peek 100 "e4"
      = some { oddEmoji with Id := sampleId, CreateAt := 77, UpdateAt := 77 } ∧
    (Save (Emoji.PreSave sampleId 77) Emoji.IsValid (Get aliasEnv "e3" true).2 otherEmoji
        (Get.heldBy "e3" true)).1.1 = none ∧
    (Save (Emoji.PreSave sampleId 77) Emoji.IsValid (Get aliasEnv "e3" true).2 otherEmoji
        (Get.heldBy "e3" true)).1.2.map (fun err => (err.Id, err.StatusCode))
      = some ("store.sql_emoji.save.app_error", StatusInternalServerError) ∧
    (Save (Emoji.PreSave sampleId 77) Emoji.IsValid (Get aliasEnv "e3" true).2 otherEmoji
        (Get.heldBy "e3" true)).2.emojiCache ≠ (Get aliasEnv "e3" true).2.emojiCache ∧
    (Save (Emoji.PreSave sampleId 77) Emoji.IsValid (Get aliasEnv "e3" true).2 otherEmoji
        (Get.heldBy "e3" true)).2.emojiCache.peek 100 "e3"
      = some { otherEmoji with Id := sampleId, CreateAt := 77, UpdateAt := 77 } := by
  decide

/-! ## The asynchronous operations -/

theorem Database.Select_snd (db : Database) (engine : SelectEngine) (text : String)
    (params : List (String × SqlValue)) :
    (db.Select engine text params).2 =
      { db with faults := db.faults.tail, log := db.log ++ [Statement.query text params] } := by
  unfold Database.Select Database.receive
  cases db.nextFault <;> rfl

theorem Database.Select_fault (db : Database) (engine : SelectEngine) (text : String)
    (params : List (String × SqlValue)) (msg : String) (h : db.nextFault = some msg) :
    (db.Select engine text params).1 = Except.error (SqlError.failure msg) := by
  unfold Database.Select Database.receive
  rw [h]

theorem Database.Select_healthy (db : Database) (engine : SelectEngine) (text : String)
    (params : List (String × SqlValue)) (h : db.nextFault = none) :
    (db.Select engine text params).1 = engine db.rows text params := by
  unfold Database.Select Database.receive
  rw [h]

theorem Search_error (engine : SelectEngine) (env : Env) (name : String) (prefixOnly : Bool)
    (limit : Int) (err : SqlError)
    (h : (env.db.Select engine Search.query
      [("Name", SqlValue.str (Search.term name prefixOnly)), ("Limit", SqlValue.int limit)]).1
        = Except.error err) :
    Search engine env name prefixOnly limit =
      (Do (fun result => { result with
          Err := some (NewAppError "SqlEmojiStore.Search" "store.sql_emoji.get_by_name.app_error"
            ("name=" ++ name ++ ", " ++ err.Error) StatusInternalServerError) }),
       { env with db := (env.db.Select engine Search.query
          [("Name", SqlValue.str (Search.term name prefixOnly)),
           ("Limit", SqlValue.int limit)]).2 }) := by
  unfold Search
  cases hs : env.db.Select engine Search.query
      [("Name", SqlValue.str (Search.term name prefixOnly)), ("Limit", SqlValue.int limit)] with
  | mk r db1 =>
    rw [hs] at h
    simp only at h
    subst h
    rfl

theorem Search_ok (engine : SelectEngine) (env : Env) (name : String) (prefixOnly : Bool)
    (limit : Int) (emojis : List Emoji)
    (h : (env.db.Select engine Search.query
      [("Name", SqlValue.str (Search.term name prefixOnly)), ("Limit", SqlValue.int limit)]).1
        = Except.ok emojis) :
    Search engine env name prefixOnly limit =
      (Do (fun result => { result with Data := some emojis }),
       { env with db := (env.db.Select engine Search.query
          [("Name", SqlValue.str (Search.term name prefixOnly)),
           ("Limit", SqlValue.int limit)]).2 }) := by
  unfold Search
  cases hs : env.db.Select engine Search.query
      [("Name", SqlValue.str (Search.term name prefixOnly)), ("Limit", SqlValue.int limit)] with
  | mk r db1 =>
    rw [hs] at h
    simp only at h
    subst h
    rfl

theorem Search_snd (engine : SelectEngine) (env : Env) (name : String) (prefixOnly : Bool)
    (limit : Int) :
    (Search engine env name prefixOnly limit).2 =
      { env with db := (env.db.Select engine Search.query
          [("Name", SqlValue.str (Search.term name prefixOnly)),
           ("Limit", SqlValue.int limit)]).2 } := by
  cases hs : (env.db.Select engine Search.query
      [("Name", SqlValue.str (Search.term name prefixOnly)), ("Limit", SqlValue.int limit)]).1 with
  | error err => rw [Search_error engine env name prefixOnly limit err hs]
  | ok emojis => rw [Search_ok engine env name prefixOnly limit emojis hs]

theorem GetList_error (engine : SelectEngine) (sortByName : String) (env : Env)
    (offset limit : Int) (sort : String) (err : SqlError)
    (h : (env.db.Select engine (GetList.query sortByName sort)
      [("Offset", SqlValue.int offset), ("Limit", SqlValue.int limit)]).1 = Except.error err) :
    GetList engine sortByName env offset limit sort =
      (Do (fun result => { result with
          Err := some (NewAppError "SqlEmojiStore.GetList" "store.sql_emoji.get_all.app_error"
            err.Error StatusInternalServerError) }),
       { env with db := (env.db.Select engine (GetList.query sortByName sort)
          [("Offset", SqlValue.int offset), ("Limit", SqlValue.int limit)]).2 }) := by
  unfold GetList
  cases hs : env.db.Select engine (GetList.query sortByName sort)
      [("Offset", SqlValue.int offset), ("Limit", SqlValue.int limit)] with
  | mk r db1 =>
    rw [hs] at h
    simp only at h
    subst h
    rfl

theorem GetList_ok (engine : SelectEngine) (sortByName : String) (env : Env)
    (offset limit : Int) (sort : String) (emoji : List Emoji)
    (h : (env.db.Select engine (GetList.query sortByName sort)
      [("Offset", SqlValue.int offset), ("Limit", SqlValue.int limit)]).1 = Except.ok emoji) :
    GetList engine sortByName env offset limit sort =
      (Do (fun result => { result with Data := some emoji }),
       { env with db := (env.db.Select engine (GetList.query sortByName sort)
          [("Offset", SqlValue.int offset), ("Limit", SqlValue.int limit)]).2 }) := by
  unfold GetList
  cases hs : env.db.Select engine (GetList.query sortByName sort)
      [("Offset", SqlValue.int offset), ("Limit", SqlValue.int limit)] with
  | mk r db1 =>
    rw [hs] at h
    simp only at h
    subst h
    rfl

theorem GetList_snd (engine : SelectEngine) (sortByName : String) (env : Env)
    (offset limit : Int) (sort : String) :
    (GetList engine sortByName env offset limit sort).2 =
      { env with db := (env.db.Select engine (GetList.query sortByName sort)
          [("Offset", SqlValue.int offset), ("Limit", SqlValue.int limit)]).2 } := by
  cases hs : (env.db.Select engine (GetList.query sortByName sort)
      [("Offset", SqlValue.int offset), ("Limit", SqlValue.int limit)]).1 with
  | error err => rw [GetList_error engine sortByName env offset limit sort err hs]
  | ok emoji => rw [GetList_ok engine sortByName env offset limit sort emoji hs]

theorem GetMultipleByName_error
    (mapParams : List String → String → String × List (String × SqlValue))
    (engine : SelectEngine) (env : Env) (names : List String) (err : SqlError)
    (h : (env.db.Select engine
      ("SELECT * FROM Emoji WHERE Name IN " ++ (mapParams names "Emoji").1 ++ " AND DeleteAt = 0")
      (mapParams names "Emoji").2).1 = Except.error err) :
    GetMultipleByName mapParams engine env names =
      (Do (fun result => { result with
          Err := some (NewAppError "SqlEmojiStore.GetByName"
            "store.sql_emoji.get_by_name.app_error"
            ("names=" ++ formatNames names ++ ", " ++ err.Error) StatusInternalServerError) }),
       { env with db := (env.db.Select engine
          ("SELECT * FROM Emoji WHERE Name IN " ++ (mapParams names "Emoji").1
            ++ " AND DeleteAt = 0")
          (mapParams names "Emoji").2).2 }) := by
  unfold GetMultipleByName
  cases hm : mapParams names "Emoji" with
  | mk keys params =>
    rw [hm] at h
    simp only at h ⊢
    cases hs : env.db.Select engine
        ("SELECT * FROM Emoji WHERE Name IN " ++ keys ++ " AND DeleteAt = 0") params with
    | mk r db1 =>
      rw [hs] at h
      simp only at h
      subst h
      rfl

theorem GetMultipleByName_ok
    (mapParams : List String → String → String × List (String × SqlValue))
    (engine : SelectEngine) (env : Env) (names : List String) (emojis : List Emoji)
    (h : (env.db.Select engine
      ("SELECT * FROM Emoji WHERE Name IN " ++ (mapParams names "Emoji").1 ++ " AND DeleteAt = 0")
      (mapParams names "Emoji").2).1 = Except.ok emojis) :
    GetMultipleByName mapParams engine env names =
      (Do (fun result => { result with Data := some emojis }),
       { env with db := (env.db.Select engine
          ("SELECT * FROM Emoji WHERE Name IN " ++ (mapParams names "Emoji").1
            ++ " AND DeleteAt = 0")
          (mapParams names "Emoji").2).2 }) := by
  unfold GetMultipleByName
  cases hm : mapParams names "Emoji" with
  | mk keys params =>
    rw [hm] at h
    simp only at h ⊢
    cases hs : env.db.Select engine
        ("SELECT * FROM Emoji WHERE Name IN " ++ keys ++ " AND DeleteAt = 0") params with
    | mk r db1 =>
      rw [hs] at h
      simp only at h
      subst h
      rfl

theorem GetMultipleByName_snd
    (mapParams : List String → String → String × List (String × SqlValue))
    (engine : SelectEngine) (env : Env) (names : List String) :
    (GetMultipleByName mapParams engine env names).2 =
      { env with db := (env.db.Select engine
          ("SELECT * FROM Emoji WHERE Name IN " ++ (mapParams names "Emoji").1
            ++ " AND DeleteAt = 0")
          (mapParams names "Emoji").2).2 } := by
  cases hs : (env.db.Select engine
      ("SELECT * FROM Emoji WHERE Name IN " ++ (mapParams names "Emoji").1 ++ " AND DeleteAt = 0")
      (mapParams names "Emoji").2).1 with
  | error err => rw [GetMultipleByName_error mapParams engine env names err hs]
  | ok emojis => rw [GetMultipleByName_ok mapParams engine env names emojis hs]

/-- Claim C15. `Search` sends exactly one statement: the query
`SELECT * FROM Emoji WHERE Name LIKE :Name AND DeleteAt = 0 ORDER BY Name LIMIT :Limit`
(restricted to `DeleteAt = 0`, ordered by `Name`), with `:Name` bound to
`name ++ "%"` when `prefixOnly` is set and to `"%" ++ name ++ "%"` otherwise,
the name being inserted as it is, and `:Limit` bound to the limit passed. -/
theorem Search_binds_pattern (engine : SelectEngine) (env : Env) (name : String)
    (prefixOnly : Bool) (limit : Int) :
    (Search engine env name prefixOnly limit).2.db.log = env.db.log ++
      [Statement.query
        "SELECT * FROM Emoji WHERE Name LIKE :Name AND DeleteAt = 0 ORDER BY Name LIMIT :Limit"
        [("Name", SqlValue.str (if prefixOnly then name ++ "%" else "%" ++ name ++ "%")),
         ("Limit", SqlValue.int limit)]] ∧
    Search.term name true = name ++ "%" ∧
    Search.term name false = "%" ++ name ++ "%" ∧
    Search.query = "SELECT * FROM Emoji WHERE Name LIKE :Name" ++ " AND DeleteAt = 0"
      ++ " ORDER BY Name" ++ " LIMIT :Limit" := by
  have ht : Search.term name true = name ++ "%" := by
    simp [Search.term]
  have hf : Search.term name false = "%" ++ name ++ "%" := by
    simp [Search.term, String.append_assoc]
  refine ⟨?_, ht, hf, by decide⟩
  rw [Search_snd, Database.Select_snd]
  cases prefixOnly
  · simp only [hf, Search.query]
    rfl
  · simp only [ht, Search.query]
    rfl

/-- Claim C16. `GetList` sends exactly one statement, with `:Offset` and
`:Limit` bound to the offset and limit passed. Its text is the select
restricted to `DeleteAt = 0`, followed by ` ORDER BY Name` if and only if `sort`
equals `model.EMOJI_SORT_BY_NAME`, followed by ` LIMIT :Limit OFFSET :Offset`;
so for every other sort value, the empty string included whenever the constant
is not empty, there is no `ORDER BY` clause. -/
theorem GetList_query_text (engine : SelectEngine) (EMOJI_SORT_BY_NAME : String) (env : Env)
    (offset limit : Int) (sort : String) :
    (GetList engine EMOJI_SORT_BY_NAME env offset limit sort).2.db.log = env.db.log ++
      [Statement.query (GetList.query EMOJI_SORT_BY_NAME sort)
        [("Offset", SqlValue.int offset), ("Limit", SqlValue.int limit)]] ∧
    GetList.query EMOJI_SORT_BY_NAME sort =
      "SELECT * FROM Emoji WHERE DeleteAt = 0"
        ++ (if sort = EMOJI_SORT_BY_NAME then " ORDER BY Name" else "")
        ++ " LIMIT :Limit OFFSET :Offset" ∧
    (GetList.query EMOJI_SORT_BY_NAME sort =
        "SELECT * FROM Emoji WHERE DeleteAt = 0 ORDER BY Name LIMIT :Limit OFFSET :Offset"
      ↔ sort = EMOJI_SORT_BY_NAME) ∧
    (GetList.query EMOJI_SORT_BY_NAME sort =
        "SELECT * FROM Emoji WHERE DeleteAt = 0 LIMIT :Limit OFFSET :Offset"
      ↔ sort ≠ EMOJI_SORT_BY_NAME) ∧
    (EMOJI_SORT_BY_NAME ≠ "" → GetList.query EMOJI_SORT_BY_NAME "" =
        "SELECT * FROM Emoji WHERE DeleteAt = 0 LIMIT :Limit OFFSET :Offset") := by
  have hyes : sort = EMOJI_SORT_BY_NAME → GetList.query EMOJI_SORT_BY_NAME sort =
      "SELECT * FROM Emoji WHERE DeleteAt = 0 ORDER BY Name LIMIT :Limit OFFSET :Offset" := by
    intro h
    simp only [GetList.query, h, if_true]
    decide
  have hno : ∀ s : String, s ≠ EMOJI_SORT_BY_NAME → GetList.query EMOJI_SORT_BY_NAME s =
      "SELECT * FROM Emoji WHERE DeleteAt = 0 LIMIT :Limit OFFSET :Offset" := by
    intro s h
    simp only [GetList.query, h, if_false]
    decide
  have hdiff : ("SELECT * FROM Emoji WHERE DeleteAt = 0 ORDER BY Name LIMIT :Limit OFFSET :Offset"
      : String) ≠ "SELECT * FROM Emoji WHERE DeleteAt = 0 LIMIT :Limit OFFSET :Offset" := by
    decide
  refine ⟨?_, ?_, ?_, ?_, ?_⟩
  · rw [GetList_snd, Database.Select_snd]
  · by_cases h : sort = EMOJI_SORT_BY_NAME
    · rw [hyes h, if_pos h]
      decide
    · rw [hno sort h, if_neg h]
      decide
  · constructor
    · intro h
      by_contra hne
      rw [hno sort hne] at h
      exact hdiff h.symm
    · exact hyes
  · constructor
    · intro h hs
      rw [hyes hs] at h
      exact hdiff h
    · exact hno sort
  · intro h
    exact hno "" (fun hc => h hc.symm)

theorem GetList_query_text_witness :
    ("name" : String) ≠ "" ∧
    GetList.query "name" "" =
      "SELECT * FROM Emoji WHERE DeleteAt = 0 LIMIT :Limit OFFSET :Offset" ∧
    (GetList.query "name" "name" =
      "SELECT * FROM Emoji WHERE DeleteAt = 0 ORDER BY Name LIMIT :Limit OFFSET :Offset"
      ↔ ("name" : String) = "name") :=
  ⟨by decide,
    (GetList_query_text sampleEngine "name" coldEnv 0 10 "").2.2.2.2 (by decide),
    (GetList_query_text sampleEngine "name" coldEnv 0 10 "name").2.2.1⟩

theorem delivered_Do {α : Type} (f : StoreResult α → StoreResult α) :
    (Do f).delivered = some (f {}) ∧ (Do f).goroutine.countP ChanOp.isSend = 1 :=
  ⟨rfl, rfl⟩

/-- Claim C17. Each of `GetMultipleByName`, `GetList` and `Search` hands back a
channel on which exactly one `StoreResult` is sent. When the backend select
fails with `err`, that result has `Data` nil and `Err` the error of the
operation with status 500; when the select succeeds with `rows`, it has `Err`
nil and `Data` exactly `rows`, in the order the backend gave them. So the result
delivered never has both sides set, and an error it carries has status 500. -/
theorem async_result_one_sided
    (mapParams : List String → String → String × List (String × SqlValue))
    (engine : SelectEngine) (EMOJI_SORT_BY_NAME : String) (env : Env) (names : List String)
    (offset limit : Int) (sort : String) (name : String) (prefixOnly : Bool) (searchLimit : Int) :
    ((∀ err, (env.db.Select engine
          ("SELECT * FROM Emoji WHERE Name IN " ++ (mapParams names "Emoji").1
            ++ " AND DeleteAt = 0") (mapParams names "Emoji").2).1 = Except.error err →
        (GetMultipleByName mapParams engine env names).1.delivered =
          some { Data := none, Err := some (NewAppError "SqlEmojiStore.GetByName"
            "store.sql_emoji.get_by_name.app_error"
            ("names=" ++ formatNames names ++ ", " ++ err.Error) StatusInternalServerError) }) ∧
      (∀ rows, (env.db.Select engine
          ("SELECT * FROM Emoji WHERE Name IN " ++ (mapParams names "Emoji").1
            ++ " AND DeleteAt = 0") (mapParams names "Emoji").2).1 = Except.ok rows →
        (GetMultipleByName mapParams engine env names).1.delivered =
          some { Data := some rows, Err := none }) ∧
      (GetMultipleByName mapParams engine env names).1.goroutine.countP ChanOp.isSend = 1 ∧
      (∃ r, (GetMultipleByName mapParams engine env names).1.delivered = some r ∧
        (r.Data = none ∨ r.Err = none) ∧
        ∀ e, r.Err = some e → e.StatusCode = StatusInternalServerError ∧ r.Data = none)) ∧
    ((∀ err, (env.db.Select engine (GetList.query EMOJI_SORT_BY_NAME sort)
          [("Offset", SqlValue.int offset), ("Limit", SqlValue.int limit)]).1
            = Except.error err →
        (GetList engine EMOJI_SORT_BY_NAME env offset limit sort).1.delivered =
          some { Data := none, Err := some (NewAppError "SqlEmojiStore.GetList"
            "store.sql_emoji.get_all.app_error" err.Error StatusInternalServerError) }) ∧
      (∀ rows, (env.db.Select engine (GetList.query EMOJI_SORT_BY_NAME sort)
          [("Offset", SqlValue.int offset), ("Limit", SqlValue.int limit)]).1
            = Except.ok rows →
        (GetList engine EMOJI_SORT_BY_NAME env offset limit sort).1.delivered =
          some { Data := some rows, Err := none }) ∧
      (GetList engine EMOJI_SORT_BY_NAME env offset limit sort).1.goroutine.countP
        ChanOp.isSend = 1 ∧
      (∃ r, (GetList engine EMOJI_SORT_BY_NAME env offset limit sort).1.delivered = some r ∧
        (r.Data = none ∨ r.Err = none) ∧
        ∀ e, r.Err = some e → e.StatusCode = StatusInternalServerError ∧ r.Data = none)) ∧
    ((∀ err, (env.db.Select engine Search.query
          [("Name", SqlValue.str (Search.term name prefixOnly)),
           ("Limit", SqlValue.int searchLimit)]).1 = Except.error err →
        (Search engine env name prefixOnly searchLimit).1.delivered =
          some { Data := none, Err := some (NewAppError "SqlEmojiStore.Search"
            "store.sql_emoji.get_by_name.app_error"
            ("name=" ++ name ++ ", " ++ err.Error) StatusInternalServerError) }) ∧
      (∀ rows, (env.db.Select engine Search.query
          [("Name", SqlValue.str (Search.term name prefixOnly)),
           ("Limit", SqlValue.int searchLimit)]).1 = Except.ok rows →
        (Search engine env name prefixOnly searchLimit).1.delivered =
          some { Data := some rows, Err := none }) ∧
      (Search engine env name prefixOnly searchLimit).1.goroutine.countP ChanOp.isSend = 1 ∧
      (∃ r, (Search engine env name prefixOnly searchLimit).1.delivered = some r ∧
        (r.Data = none ∨ r.Err = none) ∧
        ∀ e, r.Err = some e → e.StatusCode = StatusInternalServerError ∧ r.Data = none)) := by
  refine ⟨?_, ?_, ?_⟩
  · have hE := GetMultipleByName_error mapParams engine env names
    have hO := GetMultipleByName_ok mapParams engine env names
    refine ⟨fun err h => by rw [hE err h]; rfl, fun rows h => by rw [hO rows h]; rfl, ?_, ?_⟩
    · cases hs : (env.db.Select engine
          ("SELECT * FROM Emoji WHERE Name IN " ++ (mapParams names "Emoji").1
            ++ " AND DeleteAt = 0") (mapParams names "Emoji").2).1 with
      | error err => rw [hE err hs]; rfl
      | ok rows => rw [hO rows hs]; rfl
    · cases hs : (env.db.Select engine
          ("SELECT * FROM Emoji WHERE Name IN " ++ (mapParams names "Emoji").1
            ++ " AND DeleteAt = 0") (mapParams names "Emoji").2).1 with
      | error err =>
        rw [hE err hs]
        refine ⟨_, rfl, Or.inl rfl, ?_⟩
        intro e he
        simp only [Option.some.injEq] at he
        subst he
        exact ⟨rfl, rfl⟩
      | ok rows =>
        rw [hO rows hs]
        refine ⟨_, rfl, Or.inr rfl, ?_⟩
        intro e he
        cases he
  · have hE := GetList_error engine EMOJI_SORT_BY_NAME env offset limit sort
    have hO := GetList_ok engine EMOJI_SORT_BY_NAME env offset limit sort
    refine ⟨fun err h => by rw [hE err h]; rfl, fun rows h => by rw [hO rows h]; rfl, ?_, ?_⟩
    · cases hs : (env.db.Select engine (GetList.query EMOJI_SORT_BY_NAME sort)
          [("Offset", SqlValue.int offset), ("Limit", SqlValue.int limit)]).1 with
      | error err => rw [hE err hs]; rfl
      | ok rows => rw [hO rows hs]; rfl
    · cases hs : (env.db.Select engine (GetList.query EMOJI_SORT_BY_NAME sort)
          [("Offset", SqlValue.int offset), ("Limit", SqlValue.int limit)]).1 with
      | error err =>
        rw [hE err hs]
        refine ⟨_, rfl, Or.inl rfl, ?_⟩
        intro e he
        simp only [Option.some.injEq] at he
        subst he
        exact ⟨rfl, rfl⟩
      | ok rows =>
        rw [hO rows hs]
        refine ⟨_, rfl, Or.inr rfl, ?_⟩
        intro e he
        cases he
  · have hE := Search_error engine env name prefixOnly searchLimit
    have hO := Search_ok engine env name prefixOnly searchLimit
    refine ⟨fun err h => by rw [hE err h]; rfl, fun rows h => by rw [hO rows h]; rfl, ?_, ?_⟩
    · cases hs : (env.db.Select engine Search.query
          [("Name", SqlValue.str (Search.term name prefixOnly)),
           ("Limit", SqlValue.int searchLimit)]).1 with
      | error err => rw [hE err hs]; rfl
      | ok rows => rw [hO rows hs]; rfl
    · cases hs : (env.db.Select engine Search.query
          [("Name", SqlValue.str (Search.term name prefixOnly)),
           ("Limit", SqlValue.int searchLimit)]).1 with
      | error err =>
        rw [hE err hs]
        refine ⟨_, rfl, Or.inl rfl, ?_⟩
        intro e he
        simp only [Option.some.injEq] at he
        subst he
        exact ⟨rfl, rfl⟩
      | ok rows =>
        rw [hO rows hs]
        refine ⟨_, rfl, Or.inr rfl, ?_⟩
        intro e he
        cases he

theorem async_result_one_sided_witness :
    (coldEnv.db.Select sampleEngine Search.query
      [("Name", SqlValue.str (Search.term "smi" true)), ("Limit", SqlValue.int 10)]).1
        = Except.ok [sampleEmoji] ∧
    (Search sampleEngine coldEnv "smi" true 10).1.delivered
      = some { Data := some [sampleEmoji], Err := none } ∧
    (faultyEnv.db.Select sampleEngine (GetList.query "name" "name")
      [("Offset", SqlValue.int 0), ("Limit", SqlValue.int 10)]).1
        = Except.error (SqlError.failure "driver: bad connection") ∧
    (GetList sampleEngine "name" faultyEnv 0 10 "name").1.delivered
      = some { Data := none, Err := some (NewAppError "SqlEmojiStore.GetList"
          "store.sql_emoji.get_all.app_error" "driver: bad connection"
          StatusInternalServerError) } :=
  ⟨rfl,
    (async_result_one_sided sampleMapParams sampleEngine "name" coldEnv [] 0 10 "name"
      "smi" true 10).2.2.2.1 [sampleEmoji] rfl,
    rfl,
    (async_result_one_sided sampleMapParams sampleEngine "name" faultyEnv [] 0 10 "name"
      "smi" true 10).2.1.1 (SqlError.failure "driver: bad connection") rfl⟩

/-- Claim C18. `Get` returns the same record and error, leaves the same cache
(state and calls made) and the same database state, whatever metrics
collaborator it runs with, absent or present: the collaborator is only written
to. With the collaborator absent it stays absent. -/
theorem Get_metrics_noninterference (env : Env) (id : String) (allowFromCache : Bool)
    (m1 m2 : Option MetricsInterface) :
    (Get { env with metrics := m1 } id allowFromCache).1
      = (Get { env with metrics := m2 } id allowFromCache).1 ∧
    (Get { env with metrics := m1 } id allowFromCache).2.emojiCache
      = (Get { env with metrics := m2 } id allowFromCache).2.emojiCache ∧
    (Get { env with metrics := m1 } id allowFromCache).2.cacheCalls
      = (Get { env with metrics := m2 } id allowFromCache).2.cacheCalls ∧
    (Get { env with metrics := m1 } id allowFromCache).2.db
      = (Get { env with metrics := m2 } id allowFromCache).2.db ∧
    (Get { env with metrics := none } id allowFromCache).1
      = (Get env id allowFromCache).1 ∧
    (Get { env with metrics := none } id allowFromCache).2.emojiCache
      = (Get env id allowFromCache).2.emojiCache ∧
    (Get { env with metrics := none } id allowFromCache).2.metrics = none := by
  have key : ∀ m : Option MetricsInterface,
      (Get { env with metrics := m } id allowFromCache).1
        = (Get { env with metrics := none } id allowFromCache).1 ∧
      (Get { env with metrics := m } id allowFromCache).2.emojiCache
        = (Get { env with metrics := none } id allowFromCache).2.emojiCache ∧
      (Get { env with metrics := m } id allowFromCache).2.cacheCalls
        = (Get { env with metrics := none } id allowFromCache).2.cacheCalls ∧
      (Get { env with metrics := m } id allowFromCache).2.db
        = (Get { env with metrics := none } id allowFromCache).2.db ∧
      (Get { env with metrics := none } id allowFromCache).2.metrics = none := by
    intro m
    by_cases hread : allowFromCache = false ∨ env.emojiCache.peek env.now id = none
    · have h1 := Get_read { env with metrics := m } id allowFromCache hread
      have h2 := Get_read { env with metrics := none } id allowFromCache hread
      cases hs : (env.db.SelectOne id).1 with
      | error err =>
        have g1 : Get { env with metrics := m } id allowFromCache = _ :=
          h1.trans (GetFromReplica_error _ id allowFromCache err hs)
        have g2 : Get { env with metrics := none } id allowFromCache = _ :=
          h2.trans (GetFromReplica_error _ id allowFromCache err hs)
        rw [g1, g2]
        exact ⟨rfl, rfl, rfl, rfl, rfl⟩
      | ok e =>
        have g1 : Get { env with metrics := m } id allowFromCache = _ :=
          h1.trans (GetFromReplica_ok _ id allowFromCache e hs)
        have g2 : Get { env with metrics := none } id allowFromCache = _ :=
          h2.trans (GetFromReplica_ok _ id allowFromCache e hs)
        rw [g1, g2]
        exact ⟨rfl, rfl, rfl, rfl, rfl⟩
    · have hallow : allowFromCache = true := by
        cases allowFromCache
        · exact absurd (Or.inl rfl) hread
        · rfl
      subst hallow
      cases hp : env.emojiCache.peek env.now id with
      | none => exact absurd (Or.inr hp) hread
      | some v =>
        obtain ⟨e1, hr1, hG1⟩ := Get_hit_eq { env with metrics := m } id v hp
        obtain ⟨e2, hr2, hG2⟩ := Get_hit_eq { env with metrics := none } id v hp
        have he : e1 = e2 := by
          have : some e1 = some e2 := hr1.symm.trans hr2
          simpa using this
        subst he
        rw [hG1, hG2]
        exact ⟨rfl, rfl, rfl, rfl, rfl⟩
  have k1 := key m1
  have k2 := key m2
  have k3 := key env.metrics
  refine ⟨k1.1.trans k2.1.symm, k1.2.1.trans k2.2.1.symm, k1.2.2.1.trans k2.2.2.1.symm,
    k1.2.2.2.1.trans k2.2.2.2.1.symm, k3.1.symm, k3.2.1.symm, k1.2.2.2.2⟩

/-! ## Backend failures and their status -/

theorem Database.SelectOneByName_fault (db : Database) (name msg : String)
    (h : db.nextFault = some msg) :
    (db.SelectOneByName name).1 = Except.error (SqlError.failure msg) := by
  unfold Database.SelectOneByName Database.receive
  rw [h]

theorem Database.Insert_fault (db : Database) (e : Emoji) (msg : String)
    (h : db.nextFault = some msg) :
    (db.Insert e).1 = some (SqlError.failure msg) := by
  unfold Database.Insert Database.receive
  rw [h]

theorem Database.Insert_ok_inv (db : Database) (e : Emoji) (h : (db.Insert e).1 = none) :
    (db.Insert e).2.rows = db.rows ++ [e] ∧ (∀ r ∈ db.rows, r.Id ≠ e.Id) := by
  unfold Database.Insert Database.receive at h ⊢
  cases hf : db.nextFault with
  | some msg => simp [hf] at h
  | none =>
    simp only [hf] at h ⊢
    cases hv : Database.insertViolation
        { db with faults := db.faults.tail, log := db.log ++ [Statement.insert e] } e with
    | some msg => simp [hv] at h
    | none =>
      refine ⟨rfl, ?_⟩
      intro r hr hid
      unfold Database.insertViolation at hv
      have hany : db.rows.any (fun r => r.Id == e.Id) = true := by
        rw [List.any_eq_true]
        exact ⟨r, hr, by simpa using hid⟩
      simp only [hany] at hv
      split at hv
      · cases hv
      · split at hv
        · cases hv
        · split at hv
          · cases hv
          · simp at hv

theorem Database.Insert_err_rows (db : Database) (e : Emoji) (err : SqlError)
    (h : (db.Insert e).1 = some err) : (db.Insert e).2.rows = db.rows := by
  unfold Database.Insert Database.receive at h ⊢
  cases hf : db.nextFault with
  | some msg => rfl
  | none =>
    simp only [hf] at h ⊢
    cases hv : Database.insertViolation
        { db with faults := db.faults.tail, log := db.log ++ [Statement.insert e] } e with
    | some msg => rfl
    | none => simp [hv] at h

/-- Claim C12, the behaviour of the code at the failing input. When the next
statement is failed by the transport with `msg` (a failure that is not the
zero-rows condition) and `Get` reaches the backend read, `Get` returns its error
with the not-found status 404, not 500. On the same failure every other
operation surfaces status 500: `GetByName`, `Delete`, `Save` of a valid record,
and the result delivered by `GetMultipleByName`, `GetList` and `Search`. -/
theorem Get_transport_failure_is_404 (env : Env) (id : String) (allowFromCache : Bool)
    (msg : String) (hfault : env.db.nextFault = some msg)
    (hread : allowFromCache = false ∨ env.emojiCache.peek env.now id = none) :
    (Get env id allowFromCache).1 = (none, some (NewAppError "SqlEmojiStore.Get"
      "store.sql_emoji.get.app_error" ("id=" ++ id ++ ", " ++ msg) StatusNotFound)) ∧
    (∀ err, (Get env id allowFromCache).1.2 = some err →
      err.StatusCode = 404 ∧ err.StatusCode ≠ StatusInternalServerError) ∧
    (∀ name, ∃ err, (GetByName env name).1 = (none, some err) ∧
      err.StatusCode = StatusInternalServerError) ∧
    (∀ time, ∃ err, (Delete env id time).1 = Outcome.ret (some err) ∧
      err.StatusCode = StatusInternalServerError) ∧
    (∀ PreSave IsValid emoji heldBy, IsValid (PreSave emoji) = none →
      ∃ err, (Save PreSave IsValid env emoji heldBy).1 = (none, some err) ∧
        err.StatusCode = StatusInternalServerError) ∧
    (∀ mapParams engine names, ∃ err,
      (GetMultipleByName mapParams engine env names).1.delivered
        = some { Data := none, Err := some err } ∧
      err.StatusCode = StatusInternalServerError) ∧
    (∀ engine sortByName offset limit sort, ∃ err,
      (GetList engine sortByName env offset limit sort).1.delivered
        = some { Data := none, Err := some err } ∧
      err.StatusCode = StatusInternalServerError) ∧
    (∀ engine name prefixOnly limit, ∃ err,
      (Search engine env name prefixOnly limit).1.delivered
        = some { Data := none, Err := some err } ∧
      err.StatusCode = StatusInternalServerError) := by
  have hG : Get env id allowFromCache = _ :=
    (Get_read env id allowFromCache hread).trans
      (GetFromReplica_error _ id allowFromCache _ (Database.SelectOne_fault env.db id msg hfault))
  refine ⟨by rw [hG]; rfl, ?_, ?_, ?_, ?_, ?_, ?_, ?_⟩
  · intro err herr
    rw [hG] at herr
    simp only [Option.some.injEq] at herr
    subst herr
    exact ⟨rfl, by simp [NewAppError, StatusNotFound, StatusInternalServerError]⟩
  · intro name
    rw [GetByName_failure env name msg (Database.SelectOneByName_fault env.db name msg hfault)]
    exact ⟨_, rfl, rfl⟩
  · intro time
    have hx : (env.db.Exec id time time).1 = Except.error (SqlError.failure msg) := by
      rw [Database.Exec_fault env.db id time time msg hfault]
    rw [Delete_exec_error env id time _ hx]
    exact ⟨_, rfl, rfl⟩
  · intro PreSave IsValid emoji heldBy hv
    rw [Save_insert_error PreSave IsValid env emoji heldBy _ hv
      (Database.Insert_fault env.db (PreSave emoji) msg hfault)]
    exact ⟨_, rfl, rfl⟩
  · intro mapParams engine names
    rw [GetMultipleByName_error mapParams engine env names _
      (Database.Select_fault env.db engine _ _ msg hfault)]
    exact ⟨_, rfl, rfl⟩
  · intro engine sortByName offset limit sort
    rw [GetList_error engine sortByName env offset limit sort _
      (Database.Select_fault env.db engine _ _ msg hfault)]
    exact ⟨_, rfl, rfl⟩
  · intro engine name prefixOnly limit
    rw [Search_error engine env name prefixOnly limit _
      (Database.Select_fault env.db engine _ _ msg hfault)]
    exact ⟨_, rfl, rfl⟩

theorem Get_transport_failure_is_404_witness :
    faultyEnv.db.nextFault = some "driver: bad connection" ∧
    (Get faultyEnv "e1" false).1 = (none, some (NewAppError "SqlEmojiStore.Get"
      "store.sql_emoji.get.app_error" ("id=" ++ "e1" ++ ", " ++ "driver: bad connection")
      StatusNotFound)) :=
  ⟨by decide,
    (Get_transport_failure_is_404 faultyEnv "e1" false "driver: bad connection" (by decide)
      (Or.inl rfl)).1⟩

/-! ## `Save` followed by `Get` -/

theorem filter_activeWithId_of_fresh (rows : List Emoji) (id : String)
    (h : ∀ r ∈ rows, r.Id ≠ id) : rows.filter (activeWithId id) = [] := by
  rw [List.filter_eq_nil_iff]
  intro r hr
  simp [activeWithId, h r hr]

/-- Claim C14, as the code has it. If `Save` succeeds and returns `saved`, then
`saved` is the input record as stamped by `PreSave`; and if its delete timestamp
is 0, a following `Get (saved.Id, false)` whose select is not failed by the
transport returns `saved`, equal on every field, and no error. This holds
whether or not a cache entry holds the object passed to `Save`. -/
theorem Save_then_Get_round_trip (PreSave : Emoji → Emoji) (IsValid : Emoji → Option AppError)
    (env : Env) (emoji saved : Emoji) (heldBy : Option String)
    (hsave : (Save PreSave IsValid env emoji heldBy).1 = (some saved, none))
    (hactive : saved.DeleteAt = 0)
    (hok : (Save PreSave IsValid env emoji heldBy).2.db.nextFault = none) :
    saved = PreSave emoji ∧
    (Get (Save PreSave IsValid env emoji heldBy).2 saved.Id false).1 = (some saved, none) := by
  rcases Save_cases PreSave IsValid env emoji heldBy with
    ⟨err, _, h⟩ | ⟨err, _, _, h⟩ | ⟨_, hins, h⟩
  · rw [h] at hsave
    cases hsave
  · rw [h] at hsave
    cases hsave
  · have hs : saved = PreSave emoji := by
      rw [h] at hsave
      simp only [Prod.mk.injEq, Option.some.injEq, and_true] at hsave
      exact hsave.symm
    subst hs
    refine ⟨rfl, ?_⟩
    obtain ⟨hrows, hfresh⟩ := Database.Insert_ok_inv env.db (PreSave emoji) hins
    have hact : (Save PreSave IsValid env emoji heldBy).2.db.activeRows (PreSave emoji).Id
        = [PreSave emoji] := by
      rw [h]
      show ((env.db.Insert (PreSave emoji)).2.rows).filter (activeWithId (PreSave emoji).Id) = _
      rw [hrows, List.filter_append, filter_activeWithId_of_fresh env.db.rows _ hfresh]
      simp [activeWithId, hactive]
    have hsel := Database.SelectOne_one _ (PreSave emoji).Id (PreSave emoji) hok hact
    have hG : Get (Save PreSave IsValid env emoji heldBy).2 (PreSave emoji).Id false = _ :=
      (Get_read _ _ false (Or.inl rfl)).trans (GetFromReplica_ok _ _ false _ hsel)
    rw [hG]

theorem Save_then_Get_round_trip_witness :
    (Save (Emoji.PreSave sampleId 77) Emoji.IsValid coldEnv candidate none).1
      = (some (Emoji.PreSave sampleId 77 candidate), none) ∧
    (Get (Save (Emoji.PreSave sampleId 77) Emoji.IsValid coldEnv candidate none).2
      (Emoji.PreSave sampleId 77 candidate).Id false).1
      = (some (Emoji.PreSave sampleId 77 candidate), none) :=
  ⟨by decide,
    (Save_then_Get_round_trip (Emoji.PreSave sampleId 77) Emoji.IsValid coldEnv candidate
      (Emoji.PreSave sampleId 77 candidate) none (by decide) (by decide) (by decide)).2⟩

/-- Counterexample to claim C14 as stated: a candidate record with the custom
name "wave_x1", a creator identifier of 26 characters and the delete timestamp
5 is stamped, passes validation and is inserted, so `Save` succeeds; the row is
not active, and the following `Get (id, false)` returns a not-found error
instead of the record. -/
theorem Save_deleted_then_Get_not_found :
    deletedCandidate.Name = "wave_x1" ∧ deletedCandidate.DeleteAt = 5 ∧
    Emoji.IsValid (Emoji.PreSave sampleId 77 deletedCandidate) = none ∧
    (Save (Emoji.PreSave sampleId 77) Emoji.IsValid coldEnv deletedCandidate none).1
      = (some { deletedCandidate with Id := sampleId, CreateAt := 77, UpdateAt := 77 }, none) ∧
    (Get (Save (Emoji.PreSave sampleId 77) Emoji.IsValid coldEnv deletedCandidate none).2
      sampleId false).1
      = (none, some (NewAppError "SqlEmojiStore.Get" "store.sql_emoji.get.app_error"
          "id=abcdefghijklmnopqrstuvwxyz, sql: no rows in result set" StatusNotFound)) := by
  decide

/-! ## Histories -/

theorem Database.SelectOne_ok_mem (db : Database) (id : String) (e : Emoji)
    (h : (db.SelectOne id).1 = Except.ok e) :
    e ∈ db.rows ∧ e.Id = id ∧ e.DeleteAt = 0 := by
  unfold Database.SelectOne Database.receive at h
  cases hf : db.nextFault with
  | some msg => simp [hf] at h
  | none =>
    simp only [hf] at h
    have hrows : Database.activeRows
        { db with faults := db.faults.tail, log := db.log ++ [Statement.selectById id] } id
        = db.rows.filter (activeWithId id) := rfl
    rw [hrows] at h
    cases hl : db.rows.filter (activeWithId id) with
    | nil => simp [hl] at h
    | cons a t =>
      cases t with
      | cons b t => simp [hl] at h
      | nil =>
        simp only [hl, Except.ok.injEq] at h
        subst h
        have hm : a ∈ db.rows.filter (activeWithId id) := by rw [hl]; simp
        rw [List.mem_filter] at hm
        refine ⟨hm.1, ?_⟩
        simpa [activeWithId] using hm.2

theorem mem_dropLast_of {α : Type} (l : List α) (x : α) (h : x ∈ l.dropLast) : x ∈ l :=
  (List.dropLast_sublist l).subset h

theorem Get_effect (env : Env) (id : String) (allow : Bool) :
    (Get env id allow).2.db.rows = env.db.rows ∧
    ∀ x ∈ (Get env id allow).2.emojiCache.items, x ∈ env.emojiCache.items ∨
      ∃ e ∈ env.db.rows, e.Id = x.key ∧ x.value = e ∧ e.DeleteAt = 0 := by
  by_cases hread : allow = false ∨ env.emojiCache.peek env.now id = none
  · have hR := Get_read env id allow hread
    cases hs : (env.db.SelectOne id).1 with
    | error err =>
      have hG : Get env id allow = _ := hR.trans (GetFromReplica_error _ id allow err hs)
      rw [hG]
      refine ⟨?_, fun x hx => Or.inl hx⟩
      show (env.db.SelectOne id).2.rows = env.db.rows
      rw [Database.SelectOne_snd]
    | ok e =>
      have hG : Get env id allow = _ := hR.trans (GetFromReplica_ok _ id allow e hs)
      obtain ⟨hmem, hid, hdel⟩ := Database.SelectOne_ok_mem env.db id e hs
      rw [hG]
      refine ⟨?_, ?_⟩
      · show (env.db.SelectOne id).2.rows = env.db.rows
        rw [Database.SelectOne_snd]
      · intro x hx
        cases allow with
        | false => exact Or.inl hx
        | true =>
          have hx2 : x ∈ (env.emojiCache.AddWithExpiresInSecs env.now id e EMOJI_CACHE_SEC).items :=
            hx
          unfold Cache.AddWithExpiresInSecs at hx2
          simp only [List.mem_cons] at hx2
          rcases hx2 with hx2 | hx2
          · right
            subst hx2
            exact ⟨e, hmem, hid, rfl, hdel⟩
          · left
            split at hx2
            · exact (List.mem_filter.mp (mem_dropLast_of _ _ hx2)).1
            · exact (List.mem_filter.mp hx2).1
  · have hallow : allow = true := by
      cases allow
      · exact absurd (Or.inl rfl) hread
      · rfl
    subst hallow
    cases hp : env.emojiCache.peek env.now id with
    | none => exact absurd (Or.inr hp) hread
    | some v =>
      obtain ⟨e1, hr1, hG1⟩ := Get_hit_eq env id v hp
      rw [hG1]
      refine ⟨rfl, ?_⟩
      intro x hx
      left
      have hx2 : x ∈ e1 :: env.emojiCache.items.eraseP (fun y => y.key == id) := hx
      rcases List.mem_cons.mp hx2 with hx3 | hx3
      · subst hx3
        exact List.mem_of_find?_eq_some hr1
      · exact List.mem_of_mem_eraseP hx3

theorem GetByName_effect (env : Env) (name : String) :
    (GetByName env name).2.db.rows = env.db.rows ∧
    (GetByName env name).2.emojiCache = env.emojiCache := by
  have hsnd : (env.db.SelectOneByName name).2.rows = env.db.rows := by
    unfold Database.SelectOneByName Database.receive
    cases env.db.nextFault with
    | some msg => rfl
    | none =>
      simp only
      split <;> rfl
  cases hs : (env.db.SelectOneByName name).1 with
  | ok e =>
    rw [GetByName_ok env name e hs]
    exact ⟨hsnd, rfl⟩
  | error err =>
    cases err with
    | ErrNoRows =>
      rw [GetByName_no_rows env name hs]
      exact ⟨hsnd, rfl⟩
    | failure msg =>
      rw [GetByName_failure env name msg hs]
      exact ⟨hsnd, rfl⟩

theorem Delete_effect (env : Env) (id : String) (time : Int) :
    ((Delete env id time).1 ≠ Outcome.ret none ∧
      (Delete env id time).2.db.rows = env.db.rows ∧
      (Delete env id time).2.emojiCache = env.emojiCache) ∨
    ((Delete env id time).1 = Outcome.ret none ∧
      (∃ r ∈ env.db.rows, r.Id = id ∧ r.DeleteAt = 0) ∧
      (Delete env id time).2.db.rows =
        env.db.rows.map (fun e => if activeWithId id e then e.softDeleted time else e) ∧
      (Delete env id time).2.emojiCache = env.emojiCache.Remove id) := by
  rcases Delete_cases env id time with ⟨e, h⟩ | h | ⟨n, h⟩
  · left
    rw [Delete_exec_error env id time e h]
    refine ⟨fun hc => (by cases hc), ?_, rfl⟩
    show (env.db.Exec id time time).2.rows = env.db.rows
    cases hf : env.db.nextFault with
    | some msg => rw [Database.Exec_fault env.db id time time msg hf]
    | none =>
      rw [Database.Exec_ok env.db id time time hf] at h
      cases h
  · left
    obtain ⟨hf, hlen⟩ := Database.Exec_ok_inv env.db id time time 0 h
    rw [Delete_exec_zero env id time h]
    refine ⟨fun hc => (by cases hc), ?_, rfl⟩
    show (env.db.Exec id time time).2.rows = env.db.rows
    rw [Database.Exec_ok env.db id time time hf]
    exact map_softDelete_of_no_active env.db.rows id time time (List.length_eq_zero.mp hlen)
  · right
    obtain ⟨hf, hlen⟩ := Database.Exec_ok_inv env.db id time time (n + 1) h
    rw [Delete_exec_rows env id time n h]
    refine ⟨rfl, ?_, ?_, rfl⟩
    · have hne : env.db.activeRows id ≠ [] := by
        intro hc
        rw [hc] at hlen
        cases hlen
      obtain ⟨r, hr⟩ := List.exists_mem_of_ne_nil _ hne
      have hr2 := List.mem_filter.mp hr
      exact ⟨r, hr2.1, by simpa [activeWithId] using hr2.2⟩
    · show (env.db.Exec id time time).2.rows = _
      rw [Database.Exec_ok env.db id time time hf]
      rfl

theorem apply_rows (op : Op) (env : Env) :
    (op.apply env).db.rows = env.db.rows ∨
    (∃ s, (op.apply env).db.rows = env.db.rows ++ [s]) ∨
    (∃ id t, op = Op.Delete id t ∧
      (op.apply env).db.rows =
        env.db.rows.map (fun e => if activeWithId id e then e.softDeleted t else e)) := by
  cases op with
  | Save PreSave IsValid emoji heldBy =>
    rcases Save_cases PreSave IsValid env emoji heldBy with
      ⟨err, _, h⟩ | ⟨err, _, hins, h⟩ | ⟨_, hins, h⟩
    · left
      show (Save PreSave IsValid env emoji heldBy).2.db.rows = env.db.rows
      rw [h]
    · left
      show (Save PreSave IsValid env emoji heldBy).2.db.rows = env.db.rows
      rw [h]
      exact Database.Insert_err_rows env.db (PreSave emoji) err hins
    · right; left
      refine ⟨PreSave emoji, ?_⟩
      show (Save PreSave IsValid env emoji heldBy).2.db.rows = _
      rw [h]
      exact (Database.Insert_ok_inv env.db (PreSave emoji) hins).1
  | Get id allow =>
    left
    exact (Get_effect env id allow).1
  | GetByName name =>
    left
    exact (GetByName_effect env name).1
  | GetMultipleByName mapParams engine names =>
    left
    show (GetMultipleByName mapParams engine env names).2.db.rows = _
    rw [GetMultipleByName_snd]
    show (env.db.Select engine _ _).2.rows = env.db.rows
    rw [Database.Select_snd]
  | GetList engine sortByName offset limit sort =>
    left
    show (GetList engine sortByName env offset limit sort).2.db.rows = _
    rw [GetList_snd]
    show (env.db.Select engine _ _).2.rows = env.db.rows
    rw [Database.Select_snd]
  | Delete id time =>
    rcases Delete_effect env id time with ⟨_, h1, _⟩ | ⟨_, _, h1, _⟩
    · left
      exact h1
    · right; right
      exact ⟨id, time, rfl, h1⟩
  | Search engine name prefixOnly limit =>
    left
    show (Search engine env name prefixOnly limit).2.db.rows = _
    rw [Search_snd]
    show (env.db.Select engine _ _).2.rows = env.db.rows
    rw [Database.Select_snd]
  | tick now =>
    left
    rfl
  | expire keep =>
    left
    rfl

theorem apply_kind (op : Op) (env : Env) (hf : op.fresh = true) :
    ((op.apply env).db.rows = env.db.rows ∧
      ∀ x ∈ (op.apply env).emojiCache.items, x ∈ env.emojiCache.items ∨
        ∃ e ∈ env.db.rows, e.Id = x.key ∧ x.value = e ∧ e.DeleteAt = 0) ∨
    (∃ s, (op.apply env).db.rows = env.db.rows ++ [s] ∧ (∀ r ∈ env.db.rows, r.Id ≠ s.Id) ∧
      (op.apply env).emojiCache = env.emojiCache) ∨
    (∃ id t, op = Op.Delete id t ∧
      (op.apply env).db.rows =
        env.db.rows.map (fun e => if activeWithId id e then e.softDeleted t else e) ∧
      (op.apply env).emojiCache = env.emojiCache.Remove id) := by
  cases op with
  | Save PreSave IsValid emoji heldBy =>
    have hnone : heldBy = none := Option.isNone_iff_eq_none.mp hf
    subst hnone
    rcases Save_cases PreSave IsValid env emoji none with
      ⟨err, _, h⟩ | ⟨err, _, hins, h⟩ | ⟨_, hins, h⟩
    · left
      have hst : (Op.Save PreSave IsValid emoji none).apply env = env :=
        (congrArg Prod.snd h).trans rfl
      rw [hst]
      exact ⟨rfl, fun x hx => Or.inl hx⟩
    · left
      have hst : (Op.Save PreSave IsValid emoji none).apply env
          = { env with db := (env.db.Insert (PreSave emoji)).2 } :=
        (congrArg Prod.snd h).trans rfl
      rw [hst]
      exact ⟨Database.Insert_err_rows env.db (PreSave emoji) err hins, fun x hx => Or.inl hx⟩
    · right; left
      obtain ⟨hrows, hfresh⟩ := Database.Insert_ok_inv env.db (PreSave emoji) hins
      have hst : (Op.Save PreSave IsValid emoji none).apply env
          = { env with db := (env.db.Insert (PreSave emoji)).2 } :=
        (congrArg Prod.snd h).trans rfl
      rw [hst]
      exact ⟨PreSave emoji, hrows, hfresh, rfl⟩
  | Get id allow =>
    left
    exact Get_effect env id allow
  | GetByName name =>
    left
    obtain ⟨h1, h2⟩ := GetByName_effect env name
    refine ⟨h1, fun x hx => Or.inl ?_⟩
    have hx2 : x ∈ (GetByName env name).2.emojiCache.items := hx
    rw [h2] at hx2
    exact hx2
  | GetMultipleByName mapParams engine names =>
    left
    show ((GetMultipleByName mapParams engine env names).2.db.rows = _ ∧
      ∀ x ∈ (GetMultipleByName mapParams engine env names).2.emojiCache.items, _)
    rw [GetMultipleByName_snd]
    refine ⟨?_, fun x hx => Or.inl hx⟩
    show (env.db.Select engine _ _).2.rows = env.db.rows
    rw [Database.Select_snd]
  | GetList engine sortByName offset limit sort =>
    left
    show ((GetList engine sortByName env offset limit sort).2.db.rows = _ ∧
      ∀ x ∈ (GetList engine sortByName env offset limit sort).2.emojiCache.items, _)
    rw [GetList_snd]
    refine ⟨?_, fun x hx => Or.inl hx⟩
    show (env.db.Select engine _ _).2.rows = env.db.rows
    rw [Database.Select_snd]
  | Delete id time =>
    rcases Delete_effect env id time with ⟨_, h1, h2⟩ | ⟨_, _, h1, h2⟩
    · left
      refine ⟨h1, fun x hx => Or.inl ?_⟩
      have hx2 : x ∈ (Delete env id time).2.emojiCache.items := hx
      rw [h2] at hx2
      exact hx2
    · right; right
      exact ⟨id, time, rfl, h1, h2⟩
  | Search engine name prefixOnly limit =>
    left
    show ((Search engine env name prefixOnly limit).2.db.rows = _ ∧
      ∀ x ∈ (Search engine env name prefixOnly limit).2.emojiCache.items, _)
    rw [Search_snd]
    refine ⟨?_, fun x hx => Or.inl hx⟩
    show (env.db.Select engine _ _).2.rows = env.db.rows
    rw [Database.Select_snd]
  | tick now =>
    left
    exact ⟨rfl, fun x hx => Or.inl hx⟩
  | expire keep =>
    left
    exact ⟨rfl, fun x hx => Or.inl (List.mem_filter.mp hx).1⟩

theorem deleteTimes_cons (op : Op) (ops : List Op) :
    deleteTimes (op :: ops) = deleteTimes [op] ++ deleteTimes ops := by
  cases op <;> rfl

theorem Emoji.evolves_trans (t1 t2 : List Int) (r r1 r2 : Emoji)
    (h1 : Emoji.evolves t1 r r1) (h2 : Emoji.evolves t2 r1 r2) :
    Emoji.evolves (t1 ++ t2) r r2 := by
  rcases h1 with h1 | ⟨hz, t, ht, h1⟩
  · subst h1
    rcases h2 with h2 | ⟨hz2, u, hu, h2⟩
    · exact Or.inl h2
    · exact Or.inr ⟨hz2, u, List.mem_append_right _ hu, h2⟩
  · rcases h2 with h2 | ⟨hz2, u, hu, h2⟩
    · subst h2
      exact Or.inr ⟨hz, t, List.mem_append_left _ ht, h1⟩
    · refine Or.inr ⟨hz, u, List.mem_append_right _ hu, ?_⟩
      rw [h2, h1]
      rfl

theorem apply_evolves (op : Op) (env : Env) (i : Nat) (r : Emoji)
    (h : env.db.rows[i]? = some r) :
    ∃ r', (op.apply env).db.rows[i]? = some r' ∧ Emoji.evolves (deleteTimes [op]) r r' := by
  rcases apply_rows op env with hrows | ⟨s, hrows⟩ | ⟨id, t, hop, hrows⟩
  · rw [hrows]
    exact ⟨r, h, Or.inl rfl⟩
  · rw [hrows]
    refine ⟨r, ?_, Or.inl rfl⟩
    have hlt : i < env.db.rows.length := by
      rw [List.getElem?_eq_some] at h
      exact h.1
    rw [List.getElem?_append_left hlt]
    exact h
  · rw [hrows, List.getElem?_map, h]
    subst hop
    cases ha : activeWithId id r
    · exact ⟨r, by simp [ha], Or.inl rfl⟩
    · refine ⟨r.softDeleted t, by simp [ha], Or.inr ⟨?_, t, by simp [deleteTimes], rfl⟩⟩
      simp only [activeWithId, Bool.and_eq_true, beq_iff_eq] at ha
      exact ha.2

theorem runOps_evolves (ops : List Op) :
    ∀ (env : Env) (i : Nat) (r : Emoji), env.db.rows[i]? = some r →
      ∃ r', (runOps ops env).db.rows[i]? = some r' ∧ Emoji.evolves (deleteTimes ops) r r' := by
  induction ops with
  | nil =>
    intro env i r h
    exact ⟨r, h, Or.inl rfl⟩
  | cons op ops ih =>
    intro env i r h
    obtain ⟨r1, h1, e1⟩ := apply_evolves op env i r h
    obtain ⟨r2, h2, e2⟩ := ih (op.apply env) i r1 h1
    refine ⟨r2, h2, ?_⟩
    rw [deleteTimes_cons]
    exact Emoji.evolves_trans _ _ r r1 r2 e1 e2

/-- Claim C19, as the code has it. Over every sequence of store operations each
row of the table stays at its position, and the only change it can show is the
one `Delete` makes to an active row: `DeleteAt` and `UpdateAt` set to a time
value passed to `Delete`. A row whose delete timestamp is non-zero is never
modified. When every `Delete` of the sequence is passed a time above 0, a row
is either unchanged or has gone from delete timestamp 0 to a delete timestamp
above 0. A `Delete (id, time)` that returns nil has matched an active row and
has set the delete timestamp of the active rows under `id` to `time`, which is
above 0 when `time` is. -/
theorem records_only_soft_deleted (ops : List Op) (env : Env) :
    (∀ (i : Nat) (r : Emoji), env.db.rows[i]? = some r →
      ∃ r', (runOps ops env).db.rows[i]? = some r' ∧
        Emoji.evolves (deleteTimes ops) r r') ∧
    (∀ (i : Nat) (r : Emoji), env.db.rows[i]? = some r → r.DeleteAt ≠ 0 →
      (runOps ops env).db.rows[i]? = some r) ∧
    ((∀ t ∈ deleteTimes ops, 0 < t) →
      ∀ (i : Nat) (r r' : Emoji), env.db.rows[i]? = some r →
        (runOps ops env).db.rows[i]? = some r' →
        r' = r ∨ (r.DeleteAt = 0 ∧ 0 < r'.DeleteAt ∧ r' = r.softDeleted r'.DeleteAt)) ∧
    (∀ id time, (Delete env id time).1 = Outcome.ret none →
      (∃ r ∈ env.db.rows, r.Id = id ∧ r.DeleteAt = 0) ∧
      (Delete env id time).2.db.rows =
        env.db.rows.map (fun e => if activeWithId id e then e.softDeleted time else e) ∧
      (∀ r ∈ env.db.rows, r.Id = id → r.DeleteAt = 0 →
        r.softDeleted time ∈ (Delete env id time).2.db.rows ∧
        (r.softDeleted time).DeleteAt = time ∧
        (0 < time → 0 < (r.softDeleted time).DeleteAt))) := by
  refine ⟨runOps_evolves ops env, ?_, ?_, ?_⟩
  · intro i r h hne
    obtain ⟨r1, h1, e1⟩ := runOps_evolves ops env i r h
    rcases e1 with e1 | ⟨hz, _⟩
    · rw [h1, e1]
    · exact absurd hz hne
  · intro hpos i r r1 h h1
    obtain ⟨r2, h2, e2⟩ := runOps_evolves ops env i r h
    rw [h1] at h2
    simp only [Option.some.injEq] at h2
    subst h2
    rcases e2 with e2 | ⟨hz, t, ht, e2⟩
    · exact Or.inl e2
    · right
      subst e2
      exact ⟨hz, hpos t ht, rfl⟩
  · intro id time hdel
    rcases Delete_effect env id time with ⟨hne, _, _⟩ | ⟨_, hex, hrows, _⟩
    · exact absurd hdel hne
    · refine ⟨hex, hrows, ?_⟩
      intro r hr hid hz
      refine ⟨?_, rfl, fun h => h⟩
      rw [hrows, List.mem_map]
      exact ⟨r, hr, by simp [activeWithId, hid, hz]⟩

theorem records_only_soft_deleted_witness :
    (∀ t ∈ deleteTimes sampleOps, 0 < t) ∧
    coldEnv.db.rows[0]? = some sampleEmoji ∧
    (runOps sampleOps coldEnv).db.rows[0]? = some (sampleEmoji.softDeleted 300) ∧
    (sampleEmoji.softDeleted 300 = sampleEmoji ∨
      (sampleEmoji.DeleteAt = 0 ∧ 0 < (sampleEmoji.softDeleted 300).DeleteAt ∧
        sampleEmoji.softDeleted 300
          = sampleEmoji.softDeleted (sampleEmoji.softDeleted 300).DeleteAt)) ∧
    (Delete coldEnv "e1" 300).1 = Outcome.ret none ∧
    (∃ r ∈ coldEnv.db.rows, r.Id = "e1" ∧ r.DeleteAt = 0) :=
  ⟨by decide, by decide, by decide,
    (records_only_soft_deleted sampleOps coldEnv).2.2.1 (by decide) 0 sampleEmoji
      (sampleEmoji.softDeleted 300) (by decide) (by decide),
    by decide,
    ((records_only_soft_deleted sampleOps coldEnv).2.2.2 "e1" 300 (by decide)).1⟩

/-- Counterexample to claim C19 as stated: `Delete` with the time 0 succeeds on
the active sample row and leaves it active, delete timestamp 0, with its update
timestamp rewritten; with the time -5 it succeeds and leaves the delete
timestamp at -5. In neither case is the delete timestamp above 0 afterwards. -/
theorem Delete_at_nonpositive_time_not_deleted :
    (Delete coldEnv "e1" 0).1 = Outcome.ret none ∧
    (Delete coldEnv "e1" 0).2.db.rows = [{ sampleEmoji with UpdateAt := 0 }, goneEmoji] ∧
    (Delete coldEnv "e1" (-5)).1 = Outcome.ret none ∧
    (Delete coldEnv "e1" (-5)).2.db.rows
      = [{ sampleEmoji with DeleteAt := -5, UpdateAt := -5 }, goneEmoji] ∧
    ¬ (∀ r ∈ (Delete coldEnv "e1" 0).2.db.rows, r.Id = "e1" → 0 < r.DeleteAt) := by
  decide

/-! ## Cache coherence -/

theorem Inv_apply (op : Op) (env : Env) (hf : op.fresh = true) (hpk : env.db.primaryKey)
    (hco : Coherent env) :
    (op.apply env).db.primaryKey ∧ Coherent (op.apply env) := by
  rcases apply_kind op env hf with ⟨hrows, hitems⟩ | ⟨s, hrows, hfresh, hcache⟩ |
    ⟨id, t, _, hrows, hcache⟩
  · refine ⟨?_, ?_⟩
    · unfold Database.primaryKey
      rw [hrows]
      exact hpk
    · intro x hx
      rw [hrows]
      rcases hitems x hx with h | ⟨e, he, hid, hv, hz⟩
      · exact hco x h
      · exact ⟨e, he, hid, hv, hz⟩
  · refine ⟨?_, ?_⟩
    · unfold Database.primaryKey
      rw [hrows, List.map_append, List.nodup_append]
      refine ⟨hpk, by simp, ?_⟩
      intro a ha hb
      simp only [List.map_cons, List.map_nil, List.mem_singleton] at hb
      rw [List.mem_map] at ha
      obtain ⟨r, hr, hra⟩ := ha
      exact hfresh r hr (hra.trans hb)
    · intro x hx
      rw [hcache] at hx
      obtain ⟨row, hrow, h⟩ := hco x hx
      rw [hrows]
      exact ⟨row, List.mem_append_left _ hrow, h⟩
  · refine ⟨?_, ?_⟩
    · unfold Database.primaryKey
      rw [hrows, List.map_map]
      have hfun : ((fun r : Emoji => r.Id) ∘
          fun e => if activeWithId id e then e.softDeleted t else e) = fun r => r.Id := by
        funext e
        simp only [Function.comp]
        split <;> rfl
      rw [hfun]
      exact hpk
    · intro x hx
      rw [hcache] at hx
      have hx2 : x ∈ env.emojiCache.items.filter (fun e => e.key != id) := hx
      rw [List.mem_filter] at hx2
      obtain ⟨row, hrow, hid, hv, hz⟩ := hco x hx2.1
      have hne : row.Id ≠ id := by
        rw [hid]
        simpa using hx2.2
      refine ⟨row, ?_, hid, hv, hz⟩
      rw [hrows, List.mem_map]
      exact ⟨row, hrow, by simp [activeWithId, hne]⟩

theorem Inv_runOps (ops : List Op) (hfresh : ∀ op ∈ ops, op.fresh = true) :
    ∀ env : Env, env.db.primaryKey → Coherent env →
      (runOps ops env).db.primaryKey ∧ Coherent (runOps ops env) := by
  induction ops with
  | nil => exact fun env hpk hco => ⟨hpk, hco⟩
  | cons op ops ih =>
    intro env hpk hco
    obtain ⟨h1, h2⟩ := Inv_apply op env (hfresh op (List.mem_cons_self _ _)) hpk hco
    exact ih (fun o ho => hfresh o (List.mem_cons_of_mem _ ho)) (op.apply env) h1 h2

/-- Claim C20, as the code has it. Start from an empty cache and a table that
satisfies its primary key. After every finite sequence of store calls in which
`Save` is never handed a record that a cache entry holds (the pointer a cached
`Get` returned), the clock moving and the cache dropping entries in between,
every entry resident in the cache under a key `id` holds a row of the current
table with that `Id`; that row is active; and it is the only row of the table
with that `Id`. In particular whatever a cache lookup of `id` finds is the
current, active row of `id`. -/
theorem cache_coherent_after_history (ops : List Op) (env : Env)
    (hempty : env.emojiCache.items = []) (hpk : env.db.primaryKey)
    (hfresh : ∀ op ∈ ops, op.fresh = true) :
    Coherent (runOps ops env) ∧
    (runOps ops env).db.primaryKey ∧
    (∀ entry ∈ (runOps ops env).emojiCache.items,
      (∃ row ∈ (runOps ops env).db.rows,
        row.Id = entry.key ∧ entry.value = row ∧ row.DeleteAt = 0) ∧
      ∀ row ∈ (runOps ops env).db.rows, row.Id = entry.key →
        row = entry.value ∧ row.DeleteAt = 0) ∧
    (∀ now id v, (runOps ops env).emojiCache.peek now id = some v →
      v ∈ (runOps ops env).db.rows ∧ v.Id = id ∧ v.DeleteAt = 0 ∧
      ∀ row ∈ (runOps ops env).db.rows, row.Id = id → row = v) := by
  have hco0 : Coherent env := by
    intro x hx
    rw [hempty] at hx
    cases hx
  obtain ⟨hpk1, hco1⟩ := Inv_runOps ops hfresh env hpk hco0
  have huniq : ∀ entry ∈ (runOps ops env).emojiCache.items,
      ∀ row ∈ (runOps ops env).db.rows, row.Id = entry.key →
        row = entry.value ∧ row.DeleteAt = 0 := by
    intro entry hentry row hrow hid
    obtain ⟨r0, hr0, hid0, hv0, hz0⟩ := hco1 entry hentry
    have : row = r0 := List.inj_on_of_nodup_map hpk1 hrow hr0 (hid.trans hid0.symm)
    subst this
    exact ⟨hv0.symm, hz0⟩
  refine ⟨hco1, hpk1, fun entry hentry => ⟨hco1 entry hentry, huniq entry hentry⟩, ?_⟩
  intro now id v hpeek
  unfold Cache.peek at hpeek
  cases hres : (runOps ops env).emojiCache.resident id with
  | none => simp [hres] at hpeek
  | some entry =>
    rw [hres] at hpeek
    have hmem : entry ∈ (runOps ops env).emojiCache.items := List.mem_of_find?_eq_some hres
    have hkey : entry.key = id := by
      have := List.find?_some hres
      simpa using this
    have hv : entry.value = v := by
      cases hl : entry.live now with
      | false => simp [hl] at hpeek
      | true => simpa [hl] using hpeek
    obtain ⟨r0, hr0, hid0, hv0, hz0⟩ := hco1 entry hmem
    subst hv
    rw [hv0]
    refine ⟨hr0, hid0.trans hkey, hz0, ?_⟩
    intro row hrow hid
    have := (huniq entry hmem row hrow (hid.trans hkey.symm)).1
    rw [this, hv0]

theorem cache_coherent_after_history_witness :
    coldEnv.emojiCache.items = [] ∧
    (∀ op ∈ sampleOps, op.fresh = true) ∧
    (runOps sampleOps coldEnv).emojiCache.peek 600 sampleId
      = some (Emoji.PreSave sampleId 77 candidate) ∧
    Emoji.PreSave sampleId 77 candidate ∈ (runOps sampleOps coldEnv).db.rows :=
  ⟨rfl, by decide, by decide,
    ((cache_coherent_after_history sampleOps coldEnv rfl
      (by unfold Database.primaryKey; decide) (by decide)).2.2.2 600 sampleId
      (Emoji.PreSave sampleId 77 candidate) (by decide)).1⟩

/-- Counterexample to claim C20 as stated. Over a table of four rows with
distinct identifiers and an empty cache, `Get ("e3", true)` caches the row
under "e3" and returns the cached object; `Save` of that object stamps it in
place and then fails on the insert, the name being taken. The table is as it
was, and the entry resident under "e3" now carries the stamped identifier and
times: it is not a row of the table, and a cache lookup of "e3" returns a record
that differs from the row "e3". -/
theorem Get_then_Save_breaks_coherence :
    aliasEnv.emojiCache.items = [] ∧
    aliasEnv.db.primaryKey ∧
    (Get aliasEnv "e3" true).1 = (some otherEmoji, none) ∧
    (Save (Emoji.PreSave sampleId 77) Emoji.IsValid (Get aliasEnv "e3" true).2 otherEmoji
      (Get.heldBy "e3" true)).1.1 = none ∧
    (Save (Emoji.PreSave sampleId 77) Emoji.IsValid (Get aliasEnv "e3" true).2 otherEmoji
      (Get.heldBy "e3" true)).1.2.map (fun err => (err.Id, err.StatusCode))
      = some ("store.sql_emoji.save.app_error", StatusInternalServerError) ∧
    (runOps aliasOps aliasEnv).db.rows = aliasEnv.db.rows ∧
    otherEmoji ∈ (runOps aliasOps aliasEnv).db.rows ∧
    (runOps aliasOps aliasEnv).emojiCache.peek 100 "e3"
      = some { otherEmoji with Id := sampleId, CreateAt := 77, UpdateAt := 77 } ∧
    (∃ entry ∈ (runOps aliasOps aliasEnv).emojiCache.items, entry.key = "e3" ∧
      entry.value ∉ (runOps aliasOps aliasEnv).db.rows) ∧
    ¬ Coherent (runOps aliasOps aliasEnv) := by
  refine ⟨rfl, by unfold Database.primaryKey; decide, by decide, by decide, by decide,
    by decide, by decide, by decide, by decide, ?_⟩
  unfold Coherent
  decide

end sqlstore
